import Mathlib

set_option linter.unusedVariables false

/-!
Verification of the progress-tracked file-operations engine
(src/core/file_ops.py, class FileOperations) against its design
specification.

The filesystem is modelled as a rose tree of nodes; paths are lists of
components.  Machine-level failure modes that the Python code observes
through exceptions are modelled by explicit flags on nodes:
- "statFails" on a file: os.stat / os.path.getsize / open raise for it
  (permission or I/O failure); os.path.exists / isfile return False;
- "accessOk" on a directory: whether os.listdir succeeds and whether the
  os.access(R_OK or X_OK) filter in calculate_total_size keeps it;
- "unlinkFails" on a file, "rmFails" on a directory: unlink / rename /
  rmdir of this entry raise (e.g. write-protected parent);
- "dev": the device / filesystem id, deciding whether os.rename works.

The engine state threads the OperationProgress fields, the cancel flag,
the filesystem, and a log of the snapshots passed to the progress
callback.  External events (the controller thread calling cancel(), and
the 100ms wall-clock report throttle) are oracles consulted at the same
program points where the Python code reads them; each consultation
advances a step counter so that a cancel can land at any check.  The
pause flag is modelled as never set: the busy-wait loop in
wait_if_paused is a no-op when the flag is clear, and no claim under
scrutiny concerns pausing.  speed / eta / elapsed are wall-clock derived
and are not modelled; no claim concerns them.
-/

namespace FileOps

/-- A filesystem path, as a list of components below the root. -/
abbrev Path := List String

/-- A filesystem node.  MD5 digests are modelled by the file content
itself (the digest function is treated as injective). -/
inductive Node where
  | file (content : List Nat) (mode : Nat) (dev : Nat)
      (statFails : Bool) (unlinkFails : Bool)
  | dir (children : List (String × Node)) (mode : Nat) (dev : Nat)
      (accessOk : Bool) (rmFails : Bool)
  | symlink (target : Path) (dev : Nat)

/-- Child lookup in a directory's association list. -/
def getChild (cs : List (String × Node)) (name : String) : Option Node :=
  match cs.find? (fun c => c.1 == name) with
  | some c => some c.2
  | none => none

/-- Replace or append a child binding. -/
def setChild (cs : List (String × Node)) (name : String) (n : Node) :
    List (String × Node) :=
  if cs.any (fun c => c.1 == name) then
    cs.map (fun c => if c.1 == name then (name, n) else c)
  else cs ++ [(name, n)]

/-- Remove a child binding. -/
def delChild (cs : List (String × Node)) (name : String) :
    List (String × Node) :=
  cs.filter (fun c => c.1 != name)

/-- Follow a path from a node without resolving symlinks
(an intermediate symlink component is not followed; the model keeps
symlinks at leaf positions of the paths the engine manipulates). -/
def getNode : Path → Node → Option Node
  | [], n => some n
  | name :: rest, .dir cs _ _ _ _ =>
    match getChild cs name with
    | some c => getNode rest c
    | none => none
  | _ :: _, _ => none

/-- Resolve a trailing symlink one level (a link whose target is again a
link is modelled as broken). -/
def resolveNode (root : Node) (p : Path) : Option Node :=
  match getNode p root with
  | some (.symlink t _) =>
    match getNode t root with
    | some (.symlink _ _) => none
    | r => r
  | r => r

/-- The real location of the entry at p after following one trailing
symlink, when it resolves. -/
def resolvePath (root : Node) (p : Path) : Option Path :=
  match getNode p root with
  | some (.symlink t _) =>
    match getNode t root with
    | some (.symlink _ _) => none
    | some _ => some t
    | none => none
  | some _ => some p
  | none => none

/-- Write a node at a path whose parent chain exists as directories
(none on a broken parent chain, mirroring ENOENT / ENOTDIR). -/
def putNode : Path → Node → Node → Option Node
  | [], n, _ => some n
  | [name], n, .dir cs m d a r => some (.dir (setChild cs name n) m d a r)
  | name :: rest, n, .dir cs m d a r =>
    match getChild cs name with
    | some c =>
      match putNode rest n c with
      | some c' => some (.dir (setChild cs name c') m d a r)
      | none => none
    | none => none
  | _ :: _, _, _ => none

/-- Remove the entry at a path if present (no-op otherwise). -/
def eraseNode : Path → Node → Node
  | [], n => n
  | [name], .dir cs m d a r => .dir (delChild cs name) m d a r
  | name :: rest, .dir cs m d a r =>
    match getChild cs name with
    | some c => .dir (setChild cs name (eraseNode rest c)) m d a r
    | none => .dir cs m d a r
  | _ :: _, n => n

/-- os.makedirs(..., exist_ok=True): create the chain of directories,
failing if an existing component is not a directory.  Created
directories inherit the parent device and get mode 755. -/
def mkdirAll : Path → Node → Option Node
  | [], n =>
    match n with
    | .dir _ _ _ _ _ => some n
    | _ => none
  | name :: rest, .dir cs m d a r =>
    match getChild cs name with
    | some c =>
      match mkdirAll rest c with
      | some c' => some (.dir (setChild cs name c') m d a r)
      | none => none
    | none =>
      match mkdirAll rest (.dir [] 493 d true false) with
      | some c' => some (.dir (setChild cs name c') m d a r)
      | none => none
  | _ :: _, _ => none

/-- os.path.basename. -/
def basename (p : Path) : String := p.getLast?.getD ""

/-- os.path.dirname. -/
def dirname (p : Path) : Path := p.dropLast

/-- Path rendered for error messages. -/
def pathStr (p : Path) : String := "/" ++ String.intercalate "/" p

/-- os.path.islink: the entry itself is a symlink. -/
def islink (root : Node) (p : Path) : Bool :=
  match getNode p root with
  | some (.symlink _ _) => true
  | _ => false

/-- os.path.isfile: resolves to a regular file that can be stat'ed. -/
def isfile (root : Node) (p : Path) : Bool :=
  match resolveNode root p with
  | some (.file _ _ _ sf _) => !sf
  | _ => false

/-- os.path.isdir: resolves to a directory. -/
def isdir (root : Node) (p : Path) : Bool :=
  match resolveNode root p with
  | some (.dir _ _ _ _ _) => true
  | _ => false

/-- os.path.exists: stat succeeds (False for broken links and for
entries whose stat fails). -/
def pexists (root : Node) (p : Path) : Bool :=
  match resolveNode root p with
  | some (.file _ _ _ sf _) => !sf
  | some (.dir _ _ _ _ _) => true
  | _ => false

/-- os.path.getsize, as an Option (none models the OSError).  The size
reported for a directory is irrelevant to every caller and modelled
as 0. -/
def getsize (root : Node) (p : Path) : Option Nat :=
  match resolveNode root p with
  | some (.file c _ _ sf _) => if sf then none else some c.length
  | some (.dir _ _ _ _ _) => some 0
  | _ => none

/-- The st_mode permission bits read by os.stat (follows symlinks),
as an Option (none models the OSError). -/
def statMode (root : Node) (p : Path) : Option Nat :=
  match resolveNode root p with
  | some (.file _ m _ sf _) => if sf then none else some m
  | some (.dir _ m _ _ _) => some m
  | _ => none

/-- The device id of the entry at p itself (no resolution; os.rename
acts on the link, not its target). -/
def devOf (root : Node) (p : Path) : Option Nat :=
  match getNode p root with
  | some (.file _ _ d _ _) => some d
  | some (.dir _ _ d _ _) => some d
  | some (.symlink _ d) => some d
  | none => none

/-- safe_listdir (compatibility.py line 113): child names, with every
OSError swallowed into an empty listing. -/
def listdir (root : Node) (p : Path) : List String :=
  match resolveNode root p with
  | some (.dir cs _ _ a _) => if a then cs.map (fun c => c.1) else []
  | _ => []

/-- Reading a whole file (open(..., 'rb') plus the chunked read), as an
Option; none models the raised IOError. -/
def readContent (root : Node) (p : Path) : Option (List Nat) :=
  match resolveNode root p with
  | some (.file c _ _ sf _) => if sf then none else some c
  | _ => none

/-- open(dst, 'wb'): truncate an existing regular file (keeping its
metadata and failure flags) or create a fresh one in an existing parent
directory; none models IsADirectoryError / ENOENT / ENOTDIR. -/
def openWrite (root : Node) (p : Path) : Option (Path × Node) :=
  let q := match getNode p root with
    | some (.symlink t _) => t
    | _ => p
  match getNode q root with
  | some (.file _ m d sf uf) =>
    match putNode q (.file [] m d sf uf) root with
    | some r => some (q, r)
    | none => none
  | some (.dir _ _ _ _ _) => none
  | some (.symlink _ _) => none
  | none =>
    match getNode (dirname q) root with
    | some (.dir _ _ d _ _) =>
      match putNode q (.file [] 420 d false false) root with
      | some r => some (q, r)
      | none => none
    | _ => none

/-- Append a written chunk to the (already opened) destination file. -/
def appendToFile (root : Node) (p : Path) (chunk : List Nat) : Node :=
  match getNode p root with
  | some (.file c m d sf uf) =>
    (putNode p (.file (c ++ chunk) m d sf uf) root).getD root
  | _ => root

/-- The snapshot dict handed to the progress callback
(OperationProgress.to_dict, lines 52-68; elapsed / speed / eta are
wall-clock derived and not modelled).  The ovBytes and ovTotal fields
record the overall byte counters of the progress object at the moment
of the callback; to_dict itself exposes only overall_percent of the
two, but the specification's ordering guarantee speaks about
overall_bytes at delivery times, so the snapshot keeps it. -/
structure Snap where
  file : String
  percent : Nat
  copied : Nat
  total : Nat
  overallPercent : Nat
  completed : Nat
  filesTotal : Nat
  nErrors : Nat
  nWarnings : Nat
  ovBytes : Nat
  ovTotal : Nat
deriving DecidableEq, Repr

/-- The engine state: the OperationProgress fields (lines 35-50), the
cancel flag, the filesystem, the log of callback invocations, and the
step counter used to consult the external-event oracles. -/
structure EngState where
  fs : Node
  time : Nat
  cancelled : Bool
  curFile : String
  curPercent : Nat
  curBytes : Nat
  curTotal : Nat
  ovPercent : Nat
  ovBytes : Nat
  ovTotal : Nat
  filesDone : Nat
  filesTotal : Nat
  errors : List String
  warnings : List String
  snaps : List Snap

/-- External events: extCancel t is whether the controller thread's
cancel() has landed by the time of the t-th oracle consultation (the
flag state it would contribute there); tick t is whether the 100ms
wall-clock throttle (line 300) fires at the t-th consultation. -/
structure Env where
  extCancel : Nat → Bool
  tick : Nat → Bool

/-- The environment in which no external cancel ever lands and the
report throttle never fires. -/
def Env.quiet : Env := ⟨fun _ => false, fun _ => false⟩

/-- One is_cancelled() read: merge any external cancel that has landed
into the flag and advance the step counter. -/
def checkCancel (env : Env) (s : EngState) : EngState :=
  { s with cancelled := s.cancelled || env.extCancel s.time,
           time := s.time + 1 }

/-- One read of the 100ms throttle condition (line 300). -/
def drawTick (env : Env) (s : EngState) : EngState × Bool :=
  ({ s with time := s.time + 1 }, env.tick s.time)

def addError (msg : String) (s : EngState) : EngState :=
  { s with errors := s.errors ++ [msg] }

def addWarning (msg : String) (s : EngState) : EngState :=
  { s with warnings := s.warnings ++ [msg] }

/-- The snapshot taken under the lock in report_progress. -/
def mkSnap (s : EngState) : Snap :=
  { file := s.curFile, percent := s.curPercent, copied := s.curBytes,
    total := s.curTotal, overallPercent := s.ovPercent,
    completed := s.filesDone, filesTotal := s.filesTotal,
    nErrors := s.errors.length, nWarnings := s.warnings.length,
    ovBytes := s.ovBytes, ovTotal := s.ovTotal }

/-- report_progress (lines 139-147): invoke the callback with a
snapshot copy. -/
def report (s : EngState) : EngState :=
  { s with snaps := s.snaps ++ [mkSnap s] }

/-- OperationProgress.reset (lines 35-50).  The callback log is not
part of the progress object and survives. -/
def resetProgress (s : EngState) : EngState :=
  { s with curFile := "", curPercent := 0, curBytes := 0, curTotal := 0,
           ovPercent := 0, ovBytes := 0, ovTotal := 0,
           filesDone := 0, filesTotal := 0, errors := [], warnings := [] }

/-- cancel_flag.clear(); pause_flag.clear() (the pause flag is
modelled as never set). -/
def clearFlags (s : EngState) : EngState := { s with cancelled := false }

/-- Replace the filesystem component of the state. -/
def withFs (f : Node) (s : EngState) : EngState := { s with fs := f }

/-- Accumulator of calculate_total_size: engine state, running byte
total, running file count, and whether the walk was halted by a
cancel. -/
structure CAcc where
  st : EngState
  tot : Nat
  cnt : Nat
  halt : Bool

/-- The per-directory file summation of lines 189-197: among the names
os.walk classified as non-directories, a regular file passes the
exists-and-not-islink guard and is sized when its stat succeeds; a
symlink fails the islink guard; a file whose stat fails makes
os.path.exists return False; either way the entry is skipped with only
a debug log, never a warning. -/
def sumDirFiles : List (String × Node) → Nat → Nat → Nat × Nat
  | [], tot, cnt => (tot, cnt)
  | c :: rest, tot, cnt =>
    match c.2 with
    | .file content _ _ false _ => sumDirFiles rest (tot + content.length) (cnt + 1)
    | _ => sumDirFiles rest tot cnt

mutual

/-- One os.walk visit (lines 183-197) fused with the caller's loop
body: a directory that cannot be listed yields nothing; otherwise the
loop body runs for its triple - cancel check (a cancel here breaks out
of the whole walk), then the file summation; descent continues into
the real subdirectories kept by the os.access filter of line 187
(os.walk does not follow symlinked directories). -/
def calcDir (env : Env) (n : Node) (a : CAcc) : CAcc :=
  if a.halt then a
  else
    match n with
    | .dir cs _ _ ok _ =>
      if ok then
        let s := checkCancel env a.st
        if s.cancelled then { a with st := s, halt := true }
        else
          let r := sumDirFiles cs a.tot a.cnt
          calcChildren env cs { st := s, tot := r.1, cnt := r.2, halt := false }
      else a
    | _ => a

/-- Descend into the subdirectories kept by the access filter. -/
def calcChildren (env : Env) : List (String × Node) → CAcc → CAcc
  | [], a => a
  | (_, c) :: rest, a =>
    let a' := match c with
      | .dir _ _ _ true _ => calcDir env c a
      | _ => a
    calcChildren env rest a'

end

/-- The per-item loop of calculate_total_size (lines 164-201): cancel
check (break), a statable top-level file is sized (the warning branch
of line 179 would need getsize to fail after isfile succeeded, which
cannot happen in this model), a directory is walked, anything else is
skipped. -/
def calcItems (env : Env) : List Path → EngState → Nat → Nat →
    EngState × Nat × Nat
  | [], s, tot, cnt => (s, tot, cnt)
  | it :: rest, s, tot, cnt =>
    let s := checkCancel env s
    if s.cancelled then (s, tot, cnt)
    else if isfile s.fs it then
      match getsize s.fs it with
      | some sz => calcItems env rest s (tot + sz) (cnt + 1)
      | none =>
        calcItems env rest (addWarning ("Cannot read size: " ++ basename it) s)
          tot cnt
    else if isdir s.fs it then
      match resolveNode s.fs it with
      | some n =>
        let a := calcDir env n ⟨s, tot, cnt, false⟩
        calcItems env rest a.st a.tot a.cnt
      | none => calcItems env rest s tot cnt
    else calcItems env rest s tot cnt

/-- FileOperations.calculate_total_size (lines 149-204). -/
def calculate_total_size (env : Env) (items : List Path) (s : EngState) :
    EngState × Nat × Nat :=
  calcItems env items s 0 0

/-- The throttled progress update of lines 301-324: recompute the
percentages from the byte counters (speed and eta are wall-clock
derived and not modelled) and invoke the callback. -/
def updPercents (fileSize : Nat) (s : EngState) : EngState :=
  let s := if fileSize > 0 then
    { s with curPercent := s.curBytes * 100 / fileSize } else s
  if s.ovTotal > 0 then
    { s with ovPercent := s.ovBytes * 100 / s.ovTotal } else s

/-- The chunked copy loop of copy_file (lines 278-324): per chunk, an
is_cancelled check (a cancel aborts with the partial destination left
in place), the pause wait (modelled as a no-op), the read and write of
one buffer, the byte-counter updates, and the throttled report. -/
def copyChunks (env : Env) (buf : Nat) (dst : Path) (fileSize : Nat) :
    List Nat → EngState → EngState × Bool
  | rem, s =>
    let s := checkCancel env s
    if s.cancelled then (s, false)
    else
      if h : (rem.take buf).isEmpty then (s, true)
      else
        let chunk := rem.take buf
        let s := { s with fs := appendToFile s.fs dst chunk,
                          curBytes := s.curBytes + chunk.length,
                          ovBytes := s.ovBytes + chunk.length }
        let (s, t) := drawTick env s
        let s := if t then report (updPercents fileSize s) else s
        copyChunks env buf dst fileSize (rem.drop buf) s
termination_by rem => rem.length
decreasing_by
  simp only [List.isEmpty_eq_true, List.take_eq_nil_iff] at h
  have h1 : rem ≠ [] := fun hr => h (Or.inr hr)
  have h2 : buf ≠ 0 := fun hb => h (Or.inl hb)
  have := List.length_pos.mpr h1
  simp only [List.length_drop]
  omega

/-- verify_file (lines 856-880): compare the two whole-file digests;
any exception while hashing (unreadable file) makes it return False. -/
def verify_file (root : Node) (f1 f2 : Path) : Bool :=
  match readContent root f1, readContent root f2 with
  | some a, some b => a == b
  | _, _ => false

/-- os.remove wrapped in try/except pass (lines 366-370): remove the
entry unless the unlink itself fails, swallowing every error (a
directory or missing path is also swallowed). -/
def osRemoveQuiet (root : Node) (p : Path) : Node :=
  match getNode p root with
  | some (.file _ _ _ _ true) => root
  | some (.file _ _ _ _ false) => eraseNode p root
  | some (.symlink _ _) => eraseNode p root
  | _ => root

/-- The verification tail of copy_file (lines 356-374): on a digest
mismatch (or an unreadable file) record an error, attempt to remove the
failed copy, and fail. -/
def verifySection (src dst : Path) (s : EngState) : EngState × Bool :=
  if verify_file s.fs src dst then (s, true)
  else
    let s := addError ("Verification failed: " ++ basename src) s
    ({ s with fs := osRemoveQuiet s.fs dst }, false)

/-- shutil.copystat plus the preserve-permissions chmod/chown of lines
328-354: the destination's permission bits become the source's
(copystat copies the mode bits even when preserve_permissions is off;
the chown branch runs only as root, which this model does not assume).
Failures of this step would only add warnings; in this model the source
was just read and the destination just written, so the step cannot
fail. -/
def copyMetadata (root : Node) (src dst : Path) : Node :=
  match statMode root src, getNode dst root with
  | some m, some (.file c _ d sf uf) =>
    (putNode dst (.file c m d sf uf) root).getD root
  | _, _ => root

/-- FileOperations.copy_file (lines 206-397). -/
def copy_file (env : Env) (buf : Nat) (verify pp : Bool) (src dst : Path)
    (s : EngState) : EngState × Bool :=
  -- source stat for permission preservation (lines 232-239)
  let s := if pp && !(statMode s.fs src).isSome then
    addWarning ("Cannot read source permissions: " ++ basename src) s else s
  -- destination-overwrite warning (lines 242-245)
  let s := if pexists s.fs dst then
    addWarning ("Overwriting: " ++ basename dst) s else s
  -- file size (line 248); an OSError here lands in the outer handler of
  -- line 392
  match getsize s.fs src with
  | none => (addError ("Failed to copy " ++ basename src) s, false)
  | some fileSize =>
    let s := { s with curFile := basename src, curTotal := fileSize,
                      curBytes := 0, curPercent := 0 }
    -- ensure the destination directory exists (lines 262-272)
    match (if pexists s.fs (dirname dst) then some s.fs
           else mkdirAll (dirname dst) s.fs) with
    | none =>
      (addError ("Cannot create directory: " ++ pathStr (dirname dst)) s, false)
    | some fs1 =>
      let s := { s with fs := fs1 }
      -- open source and destination (lines 276-277); failures land in
      -- the IOError handler of line 379
      match readContent s.fs src with
      | none => (addError ("I/O error copying " ++ basename src) s, false)
      | some content =>
        match openWrite s.fs dst with
        | none => (addError ("I/O error copying " ++ basename src) s, false)
        | some (dstReal, fs2) =>
          let s := { s with fs := fs2 }
          match copyChunks env buf dstReal fileSize content s with
          | (s, false) => (s, false)
          | (s, true) =>
            let s := { s with fs := copyMetadata s.fs src dstReal }
            if verify then verifySection src dstReal s else (s, true)

/-- os.chmod applied silently, as in the preserve-directory-permissions
step of copy_directory (lines 548-557); a failure would only add a
warning, and in this model chmod of a just-created directory cannot
fail. -/
def setModeQuiet (root : Node) (p : Path) (mode : Nat) : Node :=
  match resolvePath root p with
  | some q =>
    match getNode q root with
    | some (.file c _ d sf uf) =>
      (putNode q (.file c (mode % 4096) d sf uf) root).getD root
    | some (.dir cs _ d a r) =>
      (putNode q (.dir cs (mode % 4096) d a r) root).getD root
    | _ => root
  | none => root

mutual

/-- FileOperations.copy_directory (lines 503-584).  The recursion
re-reads the live filesystem at every level exactly as the source does;
the fuel argument only bounds the recursion depth (the source recurses
without bound; theorems quantify over all fuel values, and exhausted
fuel returns failure without touching anything). -/
def copy_directory (env : Env) (buf : Nat) (verify pp : Bool) :
    Nat → Path → Path → EngState → EngState × Bool
  | 0, _, _, s => (s, false)
  | Nat.succ fuel, srcDir, dstDir, s =>
    -- source stat for directory permissions; a failure is silently
    -- ignored (lines 528-533)
    let srcMode := if pp then statMode s.fs srcDir else none
    -- create the destination directory (lines 536-545)
    match (if pexists s.fs dstDir then some s.fs
           else mkdirAll dstDir s.fs) with
    | none =>
      (addError ("Cannot create directory " ++ pathStr dstDir) s, false)
    | some fs1 =>
      let s := { s with fs := fs1 }
      -- apply directory permissions when preserving (lines 548-557)
      let s := match srcMode with
        | some m => { s with fs := setModeQuiet s.fs dstDir m }
        | none => s
      copyDirChildren env buf verify pp fuel srcDir dstDir
        (listdir s.fs srcDir) s

/-- The contents loop of copy_directory (lines 560-575): a cancel
returns False immediately; a failed file copy returns False immediately
(unlike the top-level batch loop); files_done counts only successful
file copies here. -/
def copyDirChildren (env : Env) (buf : Nat) (verify pp : Bool) :
    Nat → Path → Path → List String → EngState → EngState × Bool
  | _, _, _, [], s => (s, true)
  | fuel, srcDir, dstDir, nm :: rest, s =>
    let s := checkCancel env s
    if s.cancelled then (s, false)
    else
      let sp := srcDir ++ [nm]
      let dp := dstDir ++ [nm]
      if isfile s.fs sp then
        match copy_file env buf verify pp sp dp s with
        | (s, false) => (s, false)
        | (s, true) =>
          copyDirChildren env buf verify pp fuel srcDir dstDir rest
            { s with filesDone := s.filesDone + 1 }
      else if isdir s.fs sp then
        match copy_directory env buf verify pp fuel sp dp s with
        | (s, false) => (s, false)
        | (s, true) =>
          copyDirChildren env buf verify pp fuel srcDir dstDir rest s
      else copyDirChildren env buf verify pp fuel srcDir dstDir rest s

end

/-- The per-item loop of the top-level copy (lines 454-480): a cancel
breaks the loop with success cleared; a file failure records the
failure, breaks only if a cancel caused it, and still advances
files_done (line 472 runs on failure as well); a directory is copied
recursively; an item that is neither an existing file nor an existing
directory is silently skipped. -/
def copyItemsLoop (env : Env) (buf : Nat) (verify pp : Bool) (fuel : Nat)
    (dest : Path) : List Path → EngState → Bool → EngState × Bool
  | [], s, success => (s, success)
  | it :: rest, s, success =>
    let s := checkCancel env s
    if s.cancelled then (s, false)
    else
      let destPath := dest ++ [basename it]
      if isfile s.fs it then
        match copy_file env buf verify pp it destPath s with
        | (s, true) =>
          copyItemsLoop env buf verify pp fuel dest rest
            { s with filesDone := s.filesDone + 1 } success
        | (s, false) =>
          let s := checkCancel env s
          if s.cancelled then (s, false)
          else
            copyItemsLoop env buf verify pp fuel dest rest
              { s with filesDone := s.filesDone + 1 } false
      else if isdir s.fs it then
        match copy_directory env buf verify pp fuel it destPath s with
        | (s, true) => copyItemsLoop env buf verify pp fuel dest rest s success
        | (s, false) =>
          let s := checkCancel env s
          if s.cancelled then (s, false)
          else copyItemsLoop env buf verify pp fuel dest rest s false
      else copyItemsLoop env buf verify pp fuel dest rest s success

/-- FileOperations.copy (lines 399-501).  The is_cancelled reads that
only steer logging (lines 490-495) are not modelled; the ones deciding
control flow and the return value (lines 436, 455, 470, 479, 483, 501)
are. -/
def copy (env : Env) (buf fuel : Nat) (items : List Path) (dest : Path)
    (verify pp : Bool) (s : EngState) : EngState × Bool :=
  -- reset progress, clear flags (lines 424-428)
  let s := clearFlags (resetProgress s)
  -- seed the totals (lines 430-434)
  match calcItems env items s 0 0 with
  | (s, tot, cnt) =>
    let s := { s with ovTotal := tot, filesTotal := cnt }
    -- cancelled before starting? (lines 436-438)
    let s := checkCancel env s
    if s.cancelled then (s, false)
    else
      -- ensure the destination exists (lines 441-450)
      match (if pexists s.fs dest then some s.fs else mkdirAll dest s.fs) with
      | none =>
        (addError ("Cannot create destination directory: " ++ pathStr dest) s,
         false)
      | some fs1 =>
        let s := { s with fs := fs1 }
        match copyItemsLoop env buf verify pp fuel dest items s true with
        | (s, success) =>
          -- final progress update (lines 482-487)
          let s := checkCancel env s
          let s := if s.cancelled then s
            else report { s with ovPercent := 100, curPercent := 100 }
          -- return value (line 501)
          let s := checkCancel env s
          (s, success && !s.cancelled)

/-- The trash holding area (line 680). -/
def trashPath : Path := ["tmp", ".wg_trash"]

/-- os.path.splitext for ordinary names: split at the last dot unless
every character before it is a dot. -/
def splitext (name : String) : String × String :=
  let cs := name.data
  match (List.range cs.length).filter (fun i => cs.get? i = some '.') |>.getLast? with
  | none => (name, "")
  | some i =>
    if (cs.take i).all (fun c => c = '.') then (name, "")
    else (String.mk (cs.take i), String.mk (cs.drop i))

/-- The k-th candidate trash name tried by the collision loop of lines
711-715: the plain basename first, then name_k with the extension
re-attached. -/
def trashCandidate (base : String) (k : Nat) : String :=
  if k = 0 then base
  else
    let ne := splitext base
    ne.1 ++ "_" ++ toString k ++ ne.2

/-- The de-duplicating while-loop of lines 711-715: the first candidate
name not existing in the trash.  The search is bounded by one more than
the number of trash entries, which always suffices since the candidate
names are pairwise distinct; the fallback branch is unreachable. -/
def freshTrashName (root : Node) (base : String) : String :=
  let bound := (listdir root trashPath).length + 1
  match (List.range (bound + 1)).find?
      (fun k => !pexists root (trashPath ++ [trashCandidate base k])) with
  | some k => trashCandidate base k
  | none => trashCandidate base (bound + 1)

/-- Whether removing or renaming-away this entry itself raises. -/
def moveFails : Node → Bool
  | .file _ _ _ _ uf => uf
  | .dir _ _ _ _ rf => rf
  | .symlink _ _ => false

/-- shutil.move into the trash (line 718): fails (raises) when the
source is missing or its unlink/rename is flagged to fail; otherwise
the entry is re-homed under the target path (shutil.move falls back to
copy-and-delete across devices, so a device difference is not a
failure). -/
def shutilMove (root : Node) (src dst : Path) : Option Node :=
  match getNode src root with
  | none => none
  | some n => if moveFails n then none else putNode dst n (eraseNode src root)

mutual

/-- Best-effort recursive removal: which part of a tree
shutil.rmtree(..., ignore_errors=True) leaves behind (line 727).
A file whose unlink fails stays; a directory stays when its own
removal is flagged to fail or a descendant stays.  No error ever
escapes. -/
def pruneTree : Node → Option Node
  | .file c m d sf true => some (.file c m d sf true)
  | .file _ _ _ _ false => none
  | .symlink _ _ => none
  | .dir cs m d a rf =>
    let residue := pruneChildren cs
    if residue.isEmpty && !rf then none else some (.dir residue m d a rf)

/-- The children traversal of pruneTree. -/
def pruneChildren : List (String × Node) → List (String × Node)
  | [] => []
  | c :: rest =>
    match pruneTree c.2 with
    | none => pruneChildren rest
    | some c' => (c.1, c') :: pruneChildren rest

end

/-- shutil.rmtree(item, ignore_errors=True): never raises; a symlink
argument is refused by rmtree (the error is swallowed, nothing is
removed); otherwise the removable part of the tree disappears. -/
def rmtreeQuiet (root : Node) (p : Path) : Node :=
  match getNode p root with
  | some (.dir cs m d a rf) =>
    match pruneTree (.dir cs m d a rf) with
    | none => eraseNode p root
    | some n' => (putNode p n' root).getD root
  | _ => root

/-- The try-block body for one delete item (lines 705-729): trash move,
or permanent removal (unlink for files and symlinks, ignore-errors
rmtree for directories, silently nothing for a missing path).  Returns
the new filesystem and whether the body raised. -/
def deleteItem (root : Node) (useTrash : Bool) (it : Path) : Node × Bool :=
  if useTrash then
    let tp := trashPath ++ [freshTrashName root (basename it)]
    match shutilMove root it tp with
    | some fs' => (fs', false)
    | none => (root, true)
  else
    if isfile root it || islink root it then
      match getNode it root with
      | some (.file _ _ _ _ true) => (root, true)
      | some _ => (eraseNode it root, false)
      | none => (root, true)
    else if isdir root it then (rmtreeQuiet root it, false)
    else (root, false)

/-- The progress bookkeeping done for one delete item before the
removal attempt (lines 696-701): cancel-flag read already folded in by
the caller, current file name, files_done := i+1, the overall percent
derived from the item index, and the unconditional report. -/
def deleteStepState (env : Env) (total : Nat) (it : Path) (i : Nat)
    (s : EngState) : EngState :=
  report { checkCancel env s with
           curFile := basename it,
           filesDone := i + 1,
           ovPercent := (i + 1) * 100 / total }

/-- The per-item loop of delete (lines 689-735): cancel check (break
with success cleared), progress fields and an unconditional report
before the attempt, then the guarded removal; a raise appends an error
and clears success but the loop continues. -/
def deleteLoop (env : Env) (useTrash : Bool) (total : Nat) :
    List Path → Nat → EngState → Bool → EngState × Bool
  | [], _, s, success => (s, success)
  | it :: rest, i, s, success =>
    if (checkCancel env s).cancelled then (checkCancel env s, false)
    else
      let s2 := deleteStepState env total it i s
      match deleteItem s2.fs useTrash it with
      | (fs', false) =>
        deleteLoop env useTrash total rest (i + 1) (withFs fs' s2) success
      | (_, true) =>
        deleteLoop env useTrash total rest (i + 1)
          (addError ("Cannot delete " ++ basename it) s2) false

/-- The epilogue of delete: the final progress update of lines 737-741
(cancel read, then the unconditional 100-percent report when not
cancelled) and the return value of line 752. -/
def deleteFinish (env : Env) (s1 : EngState) (success : Bool) :
    EngState × Bool :=
  let s2 := checkCancel env s1
  let s3 := if s2.cancelled then s2 else report { s2 with ovPercent := 100 }
  let s4 := checkCancel env s3
  (s4, success && !s4.cancelled)

/-- The loop and epilogue of delete (lines 689-752), shared by every
trash-setup outcome. -/
def deleteTail (env : Env) (items : List Path) (ut : Bool)
    (sL : EngState) : EngState × Bool :=
  match deleteLoop env ut items.length items 0 sL true with
  | (s1, success) => deleteFinish env s1 success

/-- FileOperations.delete (lines 650-752): reset progress and flags,
seed files_total, set up the trash holding area (falling back to
permanent deletion when it cannot be created, lines 677-687), then the
loop and epilogue.  As in copy, the is_cancelled reads steering only
logging (lines 743-747) are not modelled; those of lines 691, 738 and
752 are. -/
def delete (env : Env) (items : List Path) (useTrash : Bool)
    (s : EngState) : EngState × Bool :=
  let s1 := { clearFlags (resetProgress s) with filesTotal := items.length }
  if useTrash then
    if pexists s1.fs trashPath then deleteTail env items true s1
    else
      match mkdirAll trashPath s1.fs with
      | some fs' => deleteTail env items true (withFs fs' s1)
      | none => deleteTail env items false s1
  else deleteTail env items false s1

/-- The rename pass of move (_try_rename_move, lines 623-648): per
item, a cancel check, an existing-destination refusal, and the rename
itself; an OSError from os.rename (cross-device, missing source,
flagged entry) aborts the whole pass with False. -/
def osRename (root : Node) (src dst : Path) : Option Node :=
  match getNode src root, getNode (dirname dst) root with
  | some n, some (.dir _ _ dd _ _) =>
    if moveFails n then none
    else
      match devOf root src with
      | some d => if d == dd then putNode dst n (eraseNode src root) else none
      | none => none
  | _, _ => none

/-- The loop of _try_rename_move. -/
def renameLoop (env : Env) (dest : Path) :
    List Path → EngState → EngState × Bool
  | [], s => (s, true)
  | it :: rest, s =>
    let s := checkCancel env s
    if s.cancelled then (s, false)
    else
      let dp := dest ++ [basename it]
      if pexists s.fs dp then (s, false)
      else
        match osRename s.fs it dp with
        | some fs' => renameLoop env dest rest { s with fs := fs' }
        | none => (s, false)

/-- FileOperations.move (lines 586-621): try the rename pass; if it
fails, fall back to copy with verify off followed by delete with the
trash off, succeeding only if both phases do.  Note that move neither
resets progress nor clears the control flags. -/
def move (env : Env) (buf fuel : Nat) (items : List Path) (dest : Path)
    (pp : Bool) (s : EngState) : EngState × Bool :=
  match renameLoop env dest items s with
  | (s, true) => (s, true)
  | (s, false) =>
    match copy env buf fuel items dest false pp s with
    | (s, true) => delete env items false s
    | (s, false) => (s, false)

/-- One permission bit rendered for the display string. -/
def permBit (m mask : Nat) (c : Char) : Char :=
  if m &&& mask ≠ 0 then c else '-'

/-- FileOperations.get_permissions_string (lines 914-955): the
10-character type-glyph plus rwx display, or the all-dash placeholder
when stat fails.  The masks are the stat constants S_IRUSR=256 down to
S_IXOTH=1. -/
def get_permissions_string (root : Node) (p : Path) : String :=
  match statMode root p with
  | none => "----------"
  | some m =>
    let glyph := if isdir root p then 'd'
      else if islink root p then 'l' else '-'
    String.mk [glyph,
      permBit m 256 'r', permBit m 128 'w', permBit m 64 'x',
      permBit m 32 'r', permBit m 16 'w', permBit m 8 'x',
      permBit m 4 'r', permBit m 2 'w', permBit m 1 'x']

/-- The permissions argument of set_permissions: a string or a raw
numeric mode. -/
inductive PermValue where
  | str (s : String)
  | num (n : Nat)

/-- str.isdigit for the ASCII strings this code handles. -/
def isDigitStr (s : String) : Bool :=
  s.length != 0 && s.data.all Char.isDigit

/-- int(s, 8) on an all-digit string, as an Option: a digit 8 or 9
raises ValueError (landing in the outer except handler). -/
def octParse (s : String) : Option Nat :=
  if s.data.all (fun c => '0' ≤ c && c ≤ '7') then
    some (s.data.foldl (fun a c => a * 8 + (c.toNat - 48)) 0)
  else none

/-- The positional symbolic parse of lines 981-1007, applied to the
last nine characters. -/
def parseSymbolic (cs : List Char) : Nat :=
  (if cs.get? 0 = some 'r' then 256 else 0) +
  (if cs.get? 1 = some 'w' then 128 else 0) +
  (if cs.get? 2 = some 'x' then 64 else 0) +
  (if cs.get? 3 = some 'r' then 32 else 0) +
  (if cs.get? 4 = some 'w' then 16 else 0) +
  (if cs.get? 5 = some 'x' then 8 else 0) +
  (if cs.get? 6 = some 'r' then 4 else 0) +
  (if cs.get? 7 = some 'w' then 2 else 0) +
  (if cs.get? 8 = some 'x' then 1 else 0)

/-- os.chmod (follows symlinks; the kernel keeps the low mode bits), as
an Option: none models the raised OSError (missing path or a stat
failure on the entry). -/
def chmod (root : Node) (p : Path) (mode : Nat) : Option Node :=
  match resolvePath root p with
  | some q =>
    match getNode q root with
    | some (.file c _ d sf uf) =>
      if sf then none else putNode q (.file c (mode % 4096) d sf uf) root
    | some (.dir cs _ d a r) => putNode q (.dir cs (mode % 4096) d a r) root
    | _ => none
  | none => none

/-- chmod wrapped in the error handling of set_permissions: a raise
appends an error and fails. -/
def applyChmod (p : Path) (mode : Nat) (s : EngState) : EngState × Bool :=
  match chmod s.fs p mode with
  | some fs' => ({ s with fs := fs' }, true)
  | none => (addError ("Cannot set permissions for " ++ basename p) s, false)

/-- FileOperations.set_permissions (lines 957-1025): an all-digit
string is parsed as octal (a bad octal digit raises into the except
handler: error recorded, False); a string of length 9 or 10 is parsed
symbolically from its last nine characters; any other string returns
False without recording an error (lines 1008-1010); a numeric mode is
applied directly.  No exception escapes. -/
def set_permissions (p : Path) (v : PermValue) (s : EngState) :
    EngState × Bool :=
  match v with
  | .num n => applyChmod p n s
  | .str str =>
    if isDigitStr str then
      match octParse str with
      | some mode => applyChmod p mode s
      | none => (addError ("Cannot set permissions for " ++ basename p) s, false)
    else if str.length = 9 || str.length = 10 then
      applyChmod p (parseSymbolic (str.data.drop (str.length - 9))) s
    else (s, false)

/-!  Definitions end here; the development below settles the claims.
The definitions compiled by well-founded recursion are unsealed so
that concrete runs reduce inside the kernel. -/

unseal copyChunks copy_directory copyDirChildren

/-- A fresh engine state over a filesystem, with the cancel flag as
given (a set flag models a controller that called cancel() before the
batch started). -/
def initState (r : Node) (c : Bool) : EngState :=
  { fs := r, time := 0, cancelled := c, curFile := "", curPercent := 0,
    curBytes := 0, curTotal := 0, ovPercent := 0, ovBytes := 0, ovTotal := 0,
    filesDone := 0, filesTotal := 0, errors := [], warnings := [], snaps := [] }

/-- The permission bits a stat of this very entry would report, when
the entry is statable (used to state the round-trip claim). -/
def nodeModeOf : Node → Option Nat
  | .file _ m _ false _ => some m
  | .dir _ m _ _ _ => some m
  | _ => none

mutual

/-- Modelled from the spec: the byte/file totals that section 4.1 of
the specification promises for one walked tree - "summing sizes of
regular files only, skipping entries that cannot be stat'ed",
directories "unreadable due to permissions are pruned from the walk",
symlinks not followed. -/
def specTreeSize : Node → Nat × Nat
  | .dir cs _ _ true _ => specChildrenSize cs
  | _ => (0, 0)

/-- The per-child part of specTreeSize. -/
def specChildrenSize : List (String × Node) → Nat × Nat
  | [] => (0, 0)
  | (_, c) :: rest =>
    let r := specChildrenSize rest
    match c with
    | .file content _ _ false _ => (content.length + r.1, 1 + r.2)
    | .dir _ _ _ _ _ =>
      let q := specTreeSize c
      (q.1 + r.1, q.2 + r.2)
    | _ => r

end

/-- The directory-children contribution alone (what the descent loop of
the walk adds, separated from the current directory's own files). -/
def dirsSpec : List (String × Node) → Nat × Nat
  | [] => (0, 0)
  | (_, c) :: rest =>
    let r := dirsSpec rest
    match c with
    | .dir _ _ _ _ _ =>
      let q := specTreeSize c
      (q.1 + r.1, q.2 + r.2)
    | _ => r

/-- Ordering of two snapshots in the two counters whose delivered
sequence the specification promises to be non-decreasing. -/
def snapLE (a b : Snap) : Bool :=
  decide (a.ovBytes ≤ b.ovBytes) && decide (a.completed ≤ b.completed)

/-- The snapshot log is non-decreasing in overall bytes and files
done. -/
def snapsMono : List Snap → Bool
  | [] => true
  | [_] => true
  | a :: b :: r => snapLE a b && snapsMono (b :: r)

/-- The last delivered snapshot does not exceed the live counters of
the state, so the next report can only append an equal-or-larger
snapshot. -/
def snapOK (s : EngState) : Bool :=
  (s.snaps.getLast?.map (fun sn => snapLE sn (mkSnap s))).getD true

/-- Both snapshot invariants together. -/
def SInv (s : EngState) : Bool := snapsMono s.snaps && snapOK s

/-- An engine step acceptable to the snapshot-monotonicity argument:
it keeps the invariant and never decreases the two counters. -/
def SStep (s s' : EngState) : Prop :=
  (SInv s = true → SInv s' = true) ∧ s.ovBytes ≤ s'.ovBytes ∧
    s.filesDone ≤ s'.filesDone

/-- A delivered snapshot whose per-file counters are consistent and
whose percentage fields are the ones recomputed from the byte counters
at delivery time. -/
def snapDerived (sn : Snap) : Bool :=
  decide (sn.copied ≤ sn.total) &&
  (if sn.total > 0 then decide (sn.percent = sn.copied * 100 / sn.total)
   else true) &&
  (if sn.ovTotal > 0 then
    decide (sn.overallPercent = sn.ovBytes * 100 / sn.ovTotal) else true)

/-- The state transformation of one iteration of the chunk loop after
the cancel and end-of-file checks: write the chunk, advance the byte
counters, read the throttle, and report when it fires (the loop body of
copyChunks, restated for reasoning about one step at a time; it is
definitionally the inlined lets of copyChunks). -/
def chunkStep (env : Env) (dst : Path) (fileSize : Nat) (chunk : List Nat)
    (s : EngState) : EngState :=
  let s1 := { s with fs := appendToFile s.fs dst chunk,
                     curBytes := s.curBytes + chunk.length,
                     ovBytes := s.ovBytes + chunk.length }
  let p := drawTick env s1
  if p.2 = true then report (updPercents fileSize p.1) else p.1

section MapLemmas

theorem getChild_setChild_self (cs : List (String × Node)) (name : String)
    (n : Node) : getChild (setChild cs name n) name = some n := by
  induction cs with
  | nil => simp [setChild, getChild]
  | cons c rest ih =>
    by_cases hc : c.1 == name
    · simp only [setChild, List.any_cons, hc, Bool.true_or, if_true]
      simp [getChild, List.find?, hc]
    · by_cases hrest : rest.any (fun c => c.1 == name)
      · simp only [setChild, List.any_cons, hc, Bool.false_or, hrest, if_true]
        simp only [setChild, hrest, if_true] at ih
        simp [getChild, List.find?, hc] at ih ⊢
        exact ih
      · simp only [setChild, List.any_cons, hc, Bool.false_or, hrest, if_false]
        simp only [setChild, hrest, if_false] at ih
        simp [getChild, List.find?, hc] at ih ⊢
        exact ih

theorem putNode_of_getNode {p : Path} {root n0 : Node} (n' : Node)
    (h : getNode p root = some n0) :
    ∃ r, putNode p n' root = some r ∧ getNode p r = some n' := by
  induction p generalizing root with
  | nil => exact ⟨n', rfl, rfl⟩
  | cons name rest ih =>
    match root with
    | .file _ _ _ _ _ => simp [getNode] at h
    | .symlink _ _ => simp [getNode] at h
    | .dir cs m d a r =>
      simp only [getNode] at h
      match hg : getChild cs name with
      | none => rw [hg] at h; exact absurd h (by simp)
      | some c =>
        rw [hg] at h
        match rest, h with
        | [], h =>
          refine ⟨.dir (setChild cs name n') m d a r, rfl, ?_⟩
          simp [getNode, getChild_setChild_self]
        | r1 :: r2, h =>
          obtain ⟨cr, hput, hget⟩ := ih h
          refine ⟨.dir (setChild cs name cr) m d a r, ?_, ?_⟩
          · simp only [putNode, hg, hput]
          · simp [getNode, getChild_setChild_self, hget]

end MapLemmas

section PermBits

theorem and_pow_ne_iff (m k : Nat) :
    (m &&& 2 ^ k ≠ 0) ↔ m / 2 ^ k % 2 = 1 := by
  rw [Nat.and_two_pow, Nat.testBit_to_div_mod]
  rcases Nat.mod_two_eq_zero_or_one (m / 2 ^ k) with h2 | h2 <;> simp [h2]

theorem permTerm (m k v : Nat) (c : Char) (hc : c ≠ '-') (hv : v = 2 ^ k) :
    (if permBit m v c = c then v else 0) = v * (m / v % 2) := by
  subst hv
  unfold permBit
  by_cases h : m &&& 2 ^ k ≠ 0
  · rw [if_pos h, if_pos rfl, (and_pow_ne_iff m k).mp h, Nat.mul_one]
  · rw [if_neg h, if_neg (fun he => hc he.symm)]
    have h2 : m / 2 ^ k % 2 = 0 := by
      rcases Nat.mod_two_eq_zero_or_one (m / 2 ^ k) with h2 | h2
      · exact h2
      · exact absurd ((and_pow_ne_iff m k).mpr h2) h
    rw [h2, Nat.mul_zero]

set_option maxHeartbeats 1600000 in
/-- The nine displayed permission characters, as parsed back by the
symbolic branch of set_permissions, denote exactly the low nine bits of
the original mode. -/
theorem parseSym_permBits (m : Nat) :
    parseSymbolic [permBit m 256 'r', permBit m 128 'w', permBit m 64 'x',
      permBit m 32 'r', permBit m 16 'w', permBit m 8 'x',
      permBit m 4 'r', permBit m 2 'w', permBit m 1 'x'] = m % 512 := by
  have t0 := permTerm m 8 256 'r' (by decide) (by norm_num)
  have t1 := permTerm m 7 128 'w' (by decide) (by norm_num)
  have t2 := permTerm m 6 64 'x' (by decide) (by norm_num)
  have t3 := permTerm m 5 32 'r' (by decide) (by norm_num)
  have t4 := permTerm m 4 16 'w' (by decide) (by norm_num)
  have t5 := permTerm m 3 8 'x' (by decide) (by norm_num)
  have t6 := permTerm m 2 4 'r' (by decide) (by norm_num)
  have t7 := permTerm m 1 2 'w' (by decide) (by norm_num)
  have t8 := permTerm m 0 1 'x' (by decide) (by norm_num)
  simp only [parseSymbolic, List.get?_cons_zero, List.get?_cons_succ,
    Option.some.injEq]
  rw [t0, t1, t2, t3, t4, t5, t6, t7, t8]
  omega

end PermBits

section ResolveLemmas

theorem resolveNode_file {root : Node} {p : Path} {c m d sf uf}
    (h : getNode p root = some (.file c m d sf uf)) :
    resolveNode root p = some (.file c m d sf uf) := by
  unfold resolveNode; rw [h]

theorem resolveNode_dir {root : Node} {p : Path} {cs m d a r}
    (h : getNode p root = some (.dir cs m d a r)) :
    resolveNode root p = some (.dir cs m d a r) := by
  unfold resolveNode; rw [h]

theorem resolvePath_file {root : Node} {p : Path} {c m d sf uf}
    (h : getNode p root = some (.file c m d sf uf)) :
    resolvePath root p = some p := by
  unfold resolvePath; rw [h]

theorem resolvePath_dir {root : Node} {p : Path} {cs m d a r}
    (h : getNode p root = some (.dir cs m d a r)) :
    resolvePath root p = some p := by
  unfold resolvePath; rw [h]

end ResolveLemmas

/-- Claim C8: for every path with a stat-able mode, feeding the nine
permission characters of get_permissions_string back into
set_permissions reproduces the original numeric permission mode modulo
the special bits (setuid/setgid/sticky and file-type), i.e. the mode
becomes m mod 512, which agrees with m on the nine permission bits. -/
theorem c8_perm_roundtrip (s : EngState) (p : Path) (n : Node) (m : Nat)
    (hn : getNode p s.fs = some n) (hm : nodeModeOf n = some m) :
    (set_permissions p
        (.str (String.mk ((get_permissions_string s.fs p).data.drop 1)))
        s).2 = true ∧
    statMode (set_permissions p
        (.str (String.mk ((get_permissions_string s.fs p).data.drop 1)))
        s).1.fs p = some (m % 512) ∧
    (∀ k, k < 9 → (m % 512).testBit k = m.testBit k) := by
  have hbits : ∀ k, k < 9 → (m % 512).testBit k = m.testBit k := by
    intro k hk
    have h9 : (512 : Nat) = 2 ^ 9 := by norm_num
    rw [h9, Nat.testBit_mod_two_pow]
    simp [hk]
  have h512 : m % 512 % 4096 = m % 512 :=
    Nat.mod_eq_of_lt (lt_trans (Nat.mod_lt m (by norm_num)) (by norm_num))
  have hnotdig : isDigitStr (String.mk [permBit m 256 'r', permBit m 128 'w',
      permBit m 64 'x', permBit m 32 'r', permBit m 16 'w', permBit m 8 'x',
      permBit m 4 'r', permBit m 2 'w', permBit m 1 'x']) = false := by
    have hpd : (permBit m 256 'r').isDigit = false := by
      unfold permBit; split <;> decide
    simp [isDigitStr, hpd]
  have hlen : (String.mk [permBit m 256 'r', permBit m 128 'w',
      permBit m 64 'x', permBit m 32 'r', permBit m 16 'w', permBit m 8 'x',
      permBit m 4 'r', permBit m 2 'w', permBit m 1 'x']).length = 9 := rfl
  cases n with
  | symlink t d => simp [nodeModeOf] at hm
  | file c mm d sf uf =>
    cases sf with
    | true => simp [nodeModeOf] at hm
    | false =>
      have hmm : mm = m := by simpa [nodeModeOf] using hm
      subst mm
      have hres := resolveNode_file hn
      have hsm : statMode s.fs p = some m := by simp [statMode, hres]
      have hdir : isdir s.fs p = false := by simp [isdir, hres]
      have hlink : islink s.fs p = false := by simp [islink, hn]
      have hstr : (get_permissions_string s.fs p).data.drop 1 =
          [permBit m 256 'r', permBit m 128 'w', permBit m 64 'x',
            permBit m 32 'r', permBit m 16 'w', permBit m 8 'x',
            permBit m 4 'r', permBit m 2 'w', permBit m 1 'x'] := by
        simp [get_permissions_string, hsm, hdir, hlink]
      rw [hstr]
      have hchmod : chmod s.fs p (m % 512) =
          putNode p (.file c (m % 512) d false uf) s.fs := by
        simp [chmod, resolvePath_file hn, hn, h512]
      obtain ⟨fs2, hput, hget⟩ :=
        putNode_of_getNode (.file c (m % 512) d false uf) hn
      have hrun : set_permissions p
          (.str (String.mk [permBit m 256 'r', permBit m 128 'w',
            permBit m 64 'x', permBit m 32 'r', permBit m 16 'w',
            permBit m 8 'x', permBit m 4 'r', permBit m 2 'w',
            permBit m 1 'x'])) s = ({ s with fs := fs2 }, true) := by
        simp only [set_permissions, hnotdig, Bool.false_eq_true, if_false,
          hlen]
        have hd9 : (String.mk [permBit m 256 'r', permBit m 128 'w',
            permBit m 64 'x', permBit m 32 'r', permBit m 16 'w',
            permBit m 8 'x', permBit m 4 'r', permBit m 2 'w',
            permBit m 1 'x']).data.drop (9 - 9) =
            [permBit m 256 'r', permBit m 128 'w', permBit m 64 'x',
              permBit m 32 'r', permBit m 16 'w', permBit m 8 'x',
              permBit m 4 'r', permBit m 2 'w', permBit m 1 'x'] := rfl
        simp only [hd9, parseSym_permBits, applyChmod, hchmod, hput]
        simp
      rw [hrun]
      refine ⟨rfl, ?_, hbits⟩
      simp [statMode, resolveNode_file hget]
  | dir cs mm d a r =>
    have hmm : mm = m := by simpa [nodeModeOf] using hm
    subst mm
    have hres := resolveNode_dir hn
    have hsm : statMode s.fs p = some m := by simp [statMode, hres]
    have hdir : isdir s.fs p = true := by simp [isdir, hres]
    have hstr : (get_permissions_string s.fs p).data.drop 1 =
        [permBit m 256 'r', permBit m 128 'w', permBit m 64 'x',
          permBit m 32 'r', permBit m 16 'w', permBit m 8 'x',
          permBit m 4 'r', permBit m 2 'w', permBit m 1 'x'] := by
      simp [get_permissions_string, hsm, hdir]
    rw [hstr]
    have hchmod : chmod s.fs p (m % 512) =
        putNode p (.dir cs (m % 512) d a r) s.fs := by
      simp [chmod, resolvePath_dir hn, hn, h512]
    obtain ⟨fs2, hput, hget⟩ :=
      putNode_of_getNode (.dir cs (m % 512) d a r) hn
    have hrun : set_permissions p
        (.str (String.mk [permBit m 256 'r', permBit m 128 'w',
          permBit m 64 'x', permBit m 32 'r', permBit m 16 'w',
          permBit m 8 'x', permBit m 4 'r', permBit m 2 'w',
          permBit m 1 'x'])) s = ({ s with fs := fs2 }, true) := by
      simp only [set_permissions, hnotdig, Bool.false_eq_true, if_false,
        hlen]
      have hd9 : (String.mk [permBit m 256 'r', permBit m 128 'w',
          permBit m 64 'x', permBit m 32 'r', permBit m 16 'w',
          permBit m 8 'x', permBit m 4 'r', permBit m 2 'w',
          permBit m 1 'x']).data.drop (9 - 9) =
          [permBit m 256 'r', permBit m 128 'w', permBit m 64 'x',
            permBit m 32 'r', permBit m 16 'w', permBit m 8 'x',
            permBit m 4 'r', permBit m 2 'w', permBit m 1 'x'] := rfl
      simp only [hd9, parseSym_permBits, applyChmod, hchmod, hput]
      simp
    rw [hrun]
    refine ⟨rfl, ?_, hbits⟩
    simp [statMode, resolveNode_dir hget]

/-- Witness for C8 at a concrete file of mode 754 (octal). -/
theorem c8_perm_roundtrip_witness :
    (set_permissions ["f"]
        (.str (String.mk ((get_permissions_string
          (.dir [("f", .file [1] 492 0 false false)] 493 0 true false)
          ["f"]).data.drop 1)))
        (initState (.dir [("f", .file [1] 492 0 false false)] 493 0 true false)
          false)).2 = true ∧
    statMode (set_permissions ["f"]
        (.str (String.mk ((get_permissions_string
          (.dir [("f", .file [1] 492 0 false false)] 493 0 true false)
          ["f"]).data.drop 1)))
        (initState (.dir [("f", .file [1] 492 0 false false)] 493 0 true false)
          false)).1.fs ["f"] = some (492 % 512) ∧
    (∀ k, k < 9 → ((492 : Nat) % 512).testBit k = (492 : Nat).testBit k) :=
  c8_perm_roundtrip (initState (.dir [("f", .file [1] 492 0 false false)]
    493 0 true false) false) ["f"] (.file [1] 492 0 false false) 492
    rfl rfl

/-- Claim C9, counterexample: set_permissions accepts the four-digit
octal string "7777" and applies it (returns true, mode becomes 4095),
while the claim says every string other than a 3-digit octal or a
9-character symbolic one is rejected with a false return. -/
theorem c9_counterexample :
    (set_permissions ["f"] (.str "7777")
      (initState (.dir [("f", .file [1] 420 0 false false)] 493 0 true false)
        false)).2 = true ∧
    statMode (set_permissions ["f"] (.str "7777")
      (initState (.dir [("f", .file [1] 420 0 false false)] 493 0 true false)
        false)).1.fs ["f"] = some 4095 := by
  exact ⟨rfl, rfl⟩

/-- Claim C9, amended: for string arguments, set_permissions returns
true exactly when either the string is all digits, parses as octal
(digits 8 and 9 raise into the handler: error recorded, false) and the
chmod succeeds - any length, not only 3 digits - or the string has
length 9 or 10 (not only 9) and is parsed positionally from its last
nine characters and the chmod succeeds; a string of any other shape
returns false with the state untouched.  No exception escapes: the
operation is a total function into a Boolean result. -/
theorem c9_amended (s : EngState) (p : Path) (str : String) :
    ((set_permissions p (.str str) s).2 = true ↔
      ((isDigitStr str = true ∧ ∃ mode, octParse str = some mode ∧
          (chmod s.fs p mode).isSome) ∨
       (isDigitStr str = false ∧ (str.length = 9 ∨ str.length = 10) ∧
          (chmod s.fs p
            (parseSymbolic (str.data.drop (str.length - 9)))).isSome))) ∧
    (isDigitStr str = false → str.length ≠ 9 → str.length ≠ 10 →
      set_permissions p (.str str) s = (s, false)) := by
  constructor
  · by_cases hd : isDigitStr str = true
    · match ho : octParse str with
      | some mode =>
        match hc : chmod s.fs p mode with
        | some fs2 =>
          simp [set_permissions, hd, ho, applyChmod, hc]
        | none =>
          simp [set_permissions, hd, ho, applyChmod, hc]
      | none => simp [set_permissions, hd, ho]
    · have hd' : isDigitStr str = false := by
        cases h : isDigitStr str
        · rfl
        · exact absurd h hd
      by_cases hl : str.length = 9 ∨ str.length = 10
      · match hc : chmod s.fs p
            (parseSymbolic (str.data.drop (str.length - 9))) with
        | some fs2 =>
          have hl' : (str.length = 9 || str.length = 10) = true := by
            rcases hl with h | h <;> simp [h]
          simp [set_permissions, hd', hl', applyChmod, hc, hl]
        | none =>
          have hl' : (str.length = 9 || str.length = 10) = true := by
            rcases hl with h | h <;> simp [h]
          simp [set_permissions, hd', hl', applyChmod, hc, hl]
      · have h9 : str.length ≠ 9 := fun h => hl (Or.inl h)
        have h10 : str.length ≠ 10 := fun h => hl (Or.inr h)
        simp [set_permissions, hd', h9, h10]
  · intro hd h9 h10
    simp [set_permissions, hd, h9, h10]

/-- Witness for C9's amended theorem: on a concrete file, the string
"abcde" (not digits, wrong length) is rejected with the state
untouched, and "7777" is in the accepted octal class. -/
theorem c9_amended_witness :
    ((set_permissions ["f"] (.str "abcde")
      (initState (.dir [("f", .file [1] 420 0 false false)] 493 0 true false)
        false)) =
      (initState (.dir [("f", .file [1] 420 0 false false)] 493 0 true false)
        false, false)) :=
  (c9_amended (initState (.dir [("f", .file [1] 420 0 false false)]
      493 0 true false) false) ["f"] "abcde").2 rfl
    (by decide) (by decide)

section ClaimC2

set_option maxRecDepth 4000 in
/-- Claim C2, counterexample: calculate_total_size on a directory
containing one regular file whose stat fails (permission denied) and
one readable 3-byte file returns total 3 and count 1 - the unreadable
file is excluded and the call returns normally - but the warnings list
stays empty, while the claim says a warning is appended (the walk
branch of lines 190-197 only logs at debug level; the warning branch of
line 179 belongs to top-level file items). -/
theorem c2_counterexample :
    (calculate_total_size Env.quiet [["D"]]
      (initState (.dir [("D", .dir [("good", .file [1, 1, 1] 420 0 false false),
        ("bad", .file [9, 9] 420 0 true false)] 493 0 true false)]
        493 0 true false) false)).2 = (3, 1) ∧
    (calculate_total_size Env.quiet [["D"]]
      (initState (.dir [("D", .dir [("good", .file [1, 1, 1] 420 0 false false),
        ("bad", .file [9, 9] 420 0 true false)] 493 0 true false)]
        493 0 true false) false)).1.warnings = [] := by
  exact ⟨rfl, rfl⟩

theorem sumDirFiles_acc (cs : List (String × Node)) (t c : Nat) :
    sumDirFiles cs t c =
      (t + (sumDirFiles cs 0 0).1, c + (sumDirFiles cs 0 0).2) := by
  induction cs generalizing t c with
  | nil => simp [sumDirFiles]
  | cons x rest ih =>
    match hx : x.2 with
    | .file content m d false uf =>
      simp only [sumDirFiles, hx]
      rw [ih (t + content.length) (c + 1), ih (0 + content.length) (0 + 1)]
      simp only [Prod.mk.injEq]
      omega
    | .file content m d true uf => simp only [sumDirFiles, hx]; exact ih t c
    | .dir cs' m d a rf => simp only [sumDirFiles, hx]; exact ih t c
    | .symlink tg d => simp only [sumDirFiles, hx]; exact ih t c

theorem spec_split (cs : List (String × Node)) :
    (specChildrenSize cs).1 = (sumDirFiles cs 0 0).1 + (dirsSpec cs).1 ∧
    (specChildrenSize cs).2 = (sumDirFiles cs 0 0).2 + (dirsSpec cs).2 := by
  induction cs with
  | nil => simp [specChildrenSize, sumDirFiles, dirsSpec]
  | cons x rest ih =>
    obtain ⟨ih1, ih2⟩ := ih
    obtain ⟨nm, c⟩ := x
    cases c with
    | file content m d sf uf =>
      cases sf with
      | false =>
        simp only [specChildrenSize, dirsSpec, sumDirFiles]
        rw [sumDirFiles_acc rest (0 + content.length) (0 + 1)]
        constructor <;> omega
      | true =>
        simp only [specChildrenSize, dirsSpec, sumDirFiles]
        exact ⟨ih1, ih2⟩
    | dir cs2 m d a rf =>
      simp only [specChildrenSize, dirsSpec, sumDirFiles]
      constructor <;> omega
    | symlink tg d =>
      simp only [specChildrenSize, dirsSpec, sumDirFiles]
      exact ⟨ih1, ih2⟩

mutual

/-- Under an environment in which no cancel lands, the fused walk adds
exactly the specification's totals for the visited tree and leaves the
cancel flag, warnings and errors untouched: in particular no warning or
error is recorded for unreadable files. -/
theorem calcDir_quiet (env : Env) (hq : ∀ t, env.extCancel t = false)
    (n : Node) (a : CAcc) (hh : a.halt = false)
    (hc : a.st.cancelled = false) :
    (calcDir env n a).tot = a.tot + (specTreeSize n).1 ∧
    (calcDir env n a).cnt = a.cnt + (specTreeSize n).2 ∧
    (calcDir env n a).halt = false ∧
    (calcDir env n a).st.cancelled = false ∧
    (calcDir env n a).st.warnings = a.st.warnings ∧
    (calcDir env n a).st.errors = a.st.errors := by
  match n with
  | .file c m d sf uf =>
    simp only [calcDir, hh, Bool.false_eq_true, if_false, specTreeSize]
    refine ⟨?_, ?_, ?_, ?_, ?_, ?_⟩ <;> simp [hh, hc]
  | .symlink t d =>
    simp only [calcDir, hh, Bool.false_eq_true, if_false, specTreeSize]
    refine ⟨?_, ?_, ?_, ?_, ?_, ?_⟩ <;> simp [hh, hc]
  | .dir cs m d false rf =>
    simp only [calcDir, hh, Bool.false_eq_true, if_false, if_true,
      specTreeSize]
    refine ⟨?_, ?_, ?_, ?_, ?_, ?_⟩ <;> simp [hh, hc]
  | .dir cs m d true rf =>
    simp only [calcDir, hh, Bool.false_eq_true, if_false, if_true]
    have hcc : (checkCancel env a.st).cancelled = false := by
      simp [checkCancel, hc, hq]
    simp only [hcc, Bool.false_eq_true, if_false]
    obtain ⟨h1, h2, h3, h4, h5, h6⟩ := calcChildren_quiet env hq cs
      { st := checkCancel env a.st, tot := (sumDirFiles cs a.tot a.cnt).1,
        cnt := (sumDirFiles cs a.tot a.cnt).2, halt := false } rfl hcc
    obtain ⟨hs1, hs2⟩ := spec_split cs
    have hacc := sumDirFiles_acc cs a.tot a.cnt
    refine ⟨?_, ?_, h3, h4, ?_, ?_⟩
    · rw [h1]; simp only [specTreeSize, hs1, hacc]; omega
    · rw [h2]; simp only [specTreeSize, hs2, hacc]; omega
    · rw [h5]; rfl
    · rw [h6]; rfl
termination_by sizeOf n
decreasing_by all_goals (simp_wf; try omega)

/-- The descent step of calcDir_quiet. -/
theorem calcChildren_quiet (env : Env) (hq : ∀ t, env.extCancel t = false)
    (cs : List (String × Node)) (a : CAcc) (hh : a.halt = false)
    (hc : a.st.cancelled = false) :
    (calcChildren env cs a).tot = a.tot + (dirsSpec cs).1 ∧
    (calcChildren env cs a).cnt = a.cnt + (dirsSpec cs).2 ∧
    (calcChildren env cs a).halt = false ∧
    (calcChildren env cs a).st.cancelled = false ∧
    (calcChildren env cs a).st.warnings = a.st.warnings ∧
    (calcChildren env cs a).st.errors = a.st.errors := by
  match cs with
  | [] =>
    simp only [calcChildren, dirsSpec]
    refine ⟨?_, ?_, ?_, ?_, ?_, ?_⟩ <;> simp [hh, hc]
  | (nm, c) :: rest =>
    match c with
    | .dir cs2 m d true rf =>
      simp only [calcChildren, dirsSpec]
      obtain ⟨h1, h2, h3, h4, h5, h6⟩ :=
        calcDir_quiet env hq (Node.dir cs2 m d true rf) a hh hc
      obtain ⟨g1, g2, g3, g4, g5, g6⟩ := calcChildren_quiet env hq rest
        (calcDir env (Node.dir cs2 m d true rf) a) h3 h4
      refine ⟨?_, ?_, g3, g4, ?_, ?_⟩
      · rw [g1, h1]; simp only [specTreeSize]; omega
      · rw [g2, h2]; simp only [specTreeSize]; omega
      · rw [g5, h5]
      · rw [g6, h6]
    | .dir cs2 m d false rf =>
      simp only [calcChildren, dirsSpec]
      obtain ⟨g1, g2, g3, g4, g5, g6⟩ := calcChildren_quiet env hq rest a hh hc
      refine ⟨?_, ?_, g3, g4, g5, g6⟩
      · rw [g1]; simp [specTreeSize]
      · rw [g2]; simp [specTreeSize]
    | .file c2 m d sf uf =>
      simp only [calcChildren, dirsSpec]
      obtain ⟨g1, g2, g3, g4, g5, g6⟩ := calcChildren_quiet env hq rest a hh hc
      exact ⟨by rw [g1], by rw [g2], g3, g4, g5, g6⟩
    | .symlink tg d =>
      simp only [calcChildren, dirsSpec]
      obtain ⟨g1, g2, g3, g4, g5, g6⟩ := calcChildren_quiet env hq rest a hh hc
      exact ⟨by rw [g1], by rw [g2], g3, g4, g5, g6⟩
termination_by sizeOf cs
decreasing_by all_goals (simp_wf; try omega)

end

/-- Claim C2, amended: with no cancel pending, calculate_total_size on
one directory item returns normally with exactly the specification's
totals for the walked tree - every file whose stat fails (and every
symlink) is excluded from both the byte total and the file count - but
the warnings and errors lists are left exactly as they were: no warning
is recorded for an unreadable file inside the walk. -/
theorem c2_amended (env : Env) (s : EngState) (it : Path)
    (cs : List (String × Node)) (m d : Nat) (a rf : Bool)
    (hq : ∀ t, env.extCancel t = false) (hc : s.cancelled = false)
    (hn : getNode it s.fs = some (.dir cs m d a rf)) :
    (calculate_total_size env [it] s).2 =
      ((specTreeSize (.dir cs m d a rf)).1,
       (specTreeSize (.dir cs m d a rf)).2) ∧
    (calculate_total_size env [it] s).1.warnings = s.warnings ∧
    (calculate_total_size env [it] s).1.errors = s.errors := by
  have hres := resolveNode_dir hn
  have hfile : isfile s.fs it = false := by simp [isfile, hres]
  have hdir : isdir s.fs it = true := by simp [isdir, hres]
  unfold calculate_total_size calcItems
  have hcc : (checkCancel env s).cancelled = false := by
    simp [checkCancel, hc, hq]
  simp only [hcc, Bool.false_eq_true, if_false]
  have hfs : (checkCancel env s).fs = s.fs := rfl
  simp only [hfs, hfile, Bool.false_eq_true, if_false, hdir, if_true, hres]
  obtain ⟨h1, h2, h3, h4, h5, h6⟩ := calcDir_quiet env hq (.dir cs m d a rf)
    ⟨checkCancel env s, 0, 0, false⟩ rfl hcc
  rw [calcItems]
  exact ⟨by rw [Prod.mk.injEq]; exact ⟨by rw [h1]; simp, by rw [h2]; simp⟩,
    by rw [h5]; rfl, by rw [h6]; rfl⟩

/-- Witness for C2's amended theorem at the counterexample tree. -/
theorem c2_amended_witness :
    (calculate_total_size Env.quiet [["D"]]
      (initState (.dir [("D", .dir [("good", .file [1, 1, 1] 420 0 false false),
        ("bad", .file [9, 9] 420 0 true false)] 493 0 true false)]
        493 0 true false) false)).2 =
      ((specTreeSize (.dir [("good", .file [1, 1, 1] 420 0 false false),
        ("bad", .file [9, 9] 420 0 true false)] 493 0 true false)).1,
       (specTreeSize (.dir [("good", .file [1, 1, 1] 420 0 false false),
        ("bad", .file [9, 9] 420 0 true false)] 493 0 true false)).2) ∧
    (calculate_total_size Env.quiet [["D"]]
      (initState (.dir [("D", .dir [("good", .file [1, 1, 1] 420 0 false false),
        ("bad", .file [9, 9] 420 0 true false)] 493 0 true false)]
        493 0 true false) false)).1.warnings =
      (initState (.dir [("D", .dir [("good", .file [1, 1, 1] 420 0 false false),
        ("bad", .file [9, 9] 420 0 true false)] 493 0 true false)]
        493 0 true false) false).warnings ∧
    (calculate_total_size Env.quiet [["D"]]
      (initState (.dir [("D", .dir [("good", .file [1, 1, 1] 420 0 false false),
        ("bad", .file [9, 9] 420 0 true false)] 493 0 true false)]
        493 0 true false) false)).1.errors =
      (initState (.dir [("D", .dir [("good", .file [1, 1, 1] 420 0 false false),
        ("bad", .file [9, 9] 420 0 true false)] 493 0 true false)]
        493 0 true false) false).errors :=
  c2_amended Env.quiet (initState (.dir [("D",
      .dir [("good", .file [1, 1, 1] 420 0 false false),
        ("bad", .file [9, 9] 420 0 true false)] 493 0 true false)]
      493 0 true false) false) ["D"]
    [("good", .file [1, 1, 1] 420 0 false false),
      ("bad", .file [9, 9] 420 0 true false)] 493 0 true false
    (fun _ => rfl) rfl rfl

end ClaimC2

section ClaimC1

/-- Claim C1, counterexample: with cancel() invoked before the batch
starts (the cancel flag set in the initial state) and no further
cancels, copy of one ordinary 3-byte file returns true with
files_done = 1 and the file actually copied - not false with
files_done = 0 as the claim demands - because copy clears the control
flags at line 427 before its first is_cancelled read. -/
theorem c1_counterexample :
    (copy Env.quiet 2 5 [["a"]] ["d"] false true
      (initState (.dir [("a", .file [1, 2, 3] 420 0 false false),
        ("d", .dir [] 493 0 true false)] 493 0 true false) true)).2 = true ∧
    (copy Env.quiet 2 5 [["a"]] ["d"] false true
      (initState (.dir [("a", .file [1, 2, 3] 420 0 false false),
        ("d", .dir [] 493 0 true false)] 493 0 true false) true)).1.filesDone
      = 1 ∧
    readContent (copy Env.quiet 2 5 [["a"]] ["d"] false true
      (initState (.dir [("a", .file [1, 2, 3] 420 0 false false),
        ("d", .dir [] 493 0 true false)] 493 0 true false) true)).1.fs
      ["d", "a"] = some [1, 2, 3] := by
  exact ⟨rfl, rfl, rfl⟩

/-- Claim C1, amended: a cancel() invoked before the batch starts has
no effect.  copy and delete clear the control flags at the start of the
batch, so their behaviour is independent of the initial flag value; a
pre-cancelled move abandons its rename pass at the first item check and
proceeds through the copy-plus-delete fallback, whose copy clears the
flag - none of the three returns false on account of a pre-batch
cancel. -/
theorem c1_amended :
    (∀ (env : Env) (buf fuel : Nat) (items : List Path) (dest : Path)
      (v pp b : Bool) (s : EngState),
      copy env buf fuel items dest v pp { s with cancelled := b } =
        copy env buf fuel items dest v pp s) ∧
    (∀ (env : Env) (items : List Path) (ut b : Bool) (s : EngState),
      delete env items ut { s with cancelled := b } =
        delete env items ut s) ∧
    (∀ (env : Env) (buf fuel : Nat) (it : Path) (rest : List Path)
      (dest : Path) (pp : Bool) (s : EngState), s.cancelled = true →
      move env buf fuel (it :: rest) dest pp s =
        (match copy env buf fuel (it :: rest) dest false pp
            (checkCancel env s) with
         | (s2, true) => delete env (it :: rest) false s2
         | (s2, false) => (s2, false))) := by
  refine ⟨fun env buf fuel items dest v pp b s => rfl,
    fun env items ut b s => rfl,
    fun env buf fuel it rest dest pp s hcan => ?_⟩
  unfold move renameLoop
  have hcc : (checkCancel env s).cancelled = true := by
    simp [checkCancel, hcan]
  simp only [hcc, if_true]

/-- Witness for C1's amended theorem: the move clause applied to a
concrete pre-cancelled single-item batch. -/
theorem c1_amended_witness :
    move Env.quiet 2 5 [["a"]] ["d"] true
      (initState (.dir [("a", .file [1, 2, 3] 420 0 false false),
        ("d", .dir [] 493 0 true false)] 493 0 true false) true) =
      (match copy Env.quiet 2 5 [["a"]] ["d"] false true
          (checkCancel Env.quiet
            (initState (.dir [("a", .file [1, 2, 3] 420 0 false false),
              ("d", .dir [] 493 0 true false)] 493 0 true false) true)) with
       | (s2, true) => delete Env.quiet [["a"]] false s2
       | (s2, false) => (s2, false)) :=
  c1_amended.2.2 Env.quiet 2 5 ["a"] [] ["d"] true
    (initState (.dir [("a", .file [1, 2, 3] 420 0 false false),
      ("d", .dir [] 493 0 true false)] 493 0 true false) true) rfl

end ClaimC1

section ClaimC5

/-- A rename whose source and destination parent live on different
devices raises OSError, exactly as cross-filesystem moves do. -/
theorem osRename_cross_dev (root : Node) (src dst : Path) (n : Node)
    (cs : List (String × Node)) (m dd : Nat) (a rf : Bool)
    (hit : getNode src root = some n)
    (hdest : getNode (dirname dst) root = some (.dir cs m dd a rf))
    (hdev : ∀ dv, devOf root src = some dv → dv ≠ dd) :
    osRename root src dst = none := by
  unfold osRename
  rw [hit, hdest]
  cases n with
  | file c2 m2 d2 sf2 uf2 =>
    have hd2 : devOf root src = some d2 := by unfold devOf; rw [hit]
    have hbeq : (d2 == dd) = false := by
      simp only [beq_eq_false_iff_ne, ne_eq]
      exact hdev d2 hd2
    simp [devOf, hit, hbeq, moveFails]
  | dir cs2 m2 d2 a2 rf2 =>
    have hd2 : devOf root src = some d2 := by unfold devOf; rw [hit]
    have hbeq : (d2 == dd) = false := by
      simp only [beq_eq_false_iff_ne, ne_eq]
      exact hdev d2 hd2
    simp [devOf, hit, hbeq, moveFails]
  | symlink t2 d2 =>
    have hd2 : devOf root src = some d2 := by unfold devOf; rw [hit]
    have hbeq : (d2 == dd) = false := by
      simp only [beq_eq_false_iff_ne, ne_eq]
      exact hdev d2 hd2
    simp [devOf, hit, hbeq, moveFails]

/-- Claim C5: when the rename pass of move fails, move degrades to the
copy-with-verification-off plus delete-with-trash-off composition, and
its result is the conjunction of the two phase results; moreover a
cross-filesystem single-item move (source and destination parent on
different devices) always fails the rename pass. -/
theorem c5_move_fallback :
    (∀ (env : Env) (buf fuel : Nat) (items : List Path) (dest : Path)
      (pp : Bool) (s s1 : EngState),
      renameLoop env dest items s = (s1, false) →
      move env buf fuel items dest pp s =
        (match copy env buf fuel items dest false pp s1 with
         | (s2, true) => delete env items false s2
         | (s2, false) => (s2, false)) ∧
      (move env buf fuel items dest pp s).2 =
        ((copy env buf fuel items dest false pp s1).2 &&
         (delete env items false
           (copy env buf fuel items dest false pp s1).1).2)) ∧
    (∀ (env : Env) (it : Path) (dest : Path) (s : EngState)
      (n : Node) (cs : List (String × Node)) (m dd : Nat) (a rf : Bool),
      s.cancelled = false → env.extCancel s.time = false →
      getNode it s.fs = some n →
      getNode dest s.fs = some (.dir cs m dd a rf) →
      pexists s.fs (dest ++ [basename it]) = false →
      (∀ dv, devOf s.fs it = some dv → dv ≠ dd) →
      renameLoop env dest [it] s = (checkCancel env s, false)) := by
  constructor
  · intro env buf fuel items dest pp s s1 hren
    have h1 : move env buf fuel items dest pp s =
        (match copy env buf fuel items dest false pp s1 with
         | (s2, true) => delete env items false s2
         | (s2, false) => (s2, false)) := by
      unfold move
      rw [hren]
    have h2 : ∀ (r : EngState × Bool),
        (match r with
         | (s2, true) => delete env items false s2
         | (s2, false) => (s2, false)).2 =
          (r.2 && (delete env items false r.1).2) := by
      intro r
      match r with
      | (s2, true) => simp
      | (s2, false) => simp
    refine ⟨h1, ?_⟩
    rw [h1]
    exact h2 _
  · intro env it dest s n cs m dd a rf hcan hq hit hdest hne hdev
    have hdir : dirname (dest ++ [basename it]) = dest := by
      simp [dirname]
    have hdest' : getNode (dirname (dest ++ [basename it])) s.fs =
        some (.dir cs m dd a rf) := by rw [hdir]; exact hdest
    have hosr := osRename_cross_dev s.fs it (dest ++ [basename it]) n
      cs m dd a rf hit hdest' hdev
    unfold renameLoop
    have hcc : (checkCancel env s).cancelled = false := by
      simp [checkCancel, hcan, hq]
    have hne' : pexists (checkCancel env s).fs (dest ++ [basename it]) = false :=
      hne
    have hosr' : osRename (checkCancel env s).fs it (dest ++ [basename it]) =
        none := hosr
    simp only [hcc, Bool.false_eq_true, if_false, hne', hosr']

/-- Witness for C5: a cross-device single-file move on a concrete tree
fails its rename pass, and the fallback composition equation holds
there with the stated phase conjunction. -/
theorem c5_move_fallback_witness :
    renameLoop Env.quiet ["d"] [["a"]]
      (initState (.dir [("a", .file [5] 420 1 false false),
        ("d", .dir [] 493 0 true false)] 493 0 true false) false) =
      (checkCancel Env.quiet
        (initState (.dir [("a", .file [5] 420 1 false false),
          ("d", .dir [] 493 0 true false)] 493 0 true false) false), false) ∧
    (move Env.quiet 2 5 [["a"]] ["d"] true
      (initState (.dir [("a", .file [5] 420 1 false false),
        ("d", .dir [] 493 0 true false)] 493 0 true false) false)).2 =
      ((copy Env.quiet 2 5 [["a"]] ["d"] false true
        (checkCancel Env.quiet
          (initState (.dir [("a", .file [5] 420 1 false false),
            ("d", .dir [] 493 0 true false)] 493 0 true false) false))).2 &&
       (delete Env.quiet [["a"]] false
         (copy Env.quiet 2 5 [["a"]] ["d"] false true
           (checkCancel Env.quiet
             (initState (.dir [("a", .file [5] 420 1 false false),
               ("d", .dir [] 493 0 true false)] 493 0 true false)
               false))).1).2) := by
  have hren := c5_move_fallback.2 Env.quiet ["a"] ["d"]
    (initState (.dir [("a", .file [5] 420 1 false false),
      ("d", .dir [] 493 0 true false)] 493 0 true false) false)
    (.file [5] 420 1 false false) [] 493 0 true false
    rfl rfl rfl rfl rfl
    (fun dv hdv => by
      have h1 : (some (1 : Nat)) = some dv := Eq.trans (by rfl) hdv
      injection h1 with h2
      omega)
  refine ⟨hren, ?_⟩
  exact (c5_move_fallback.1 Env.quiet 2 5 [["a"]] ["d"] true _ _ hren).2

end ClaimC5

section StateLemmas

@[simp] theorem checkCancel_fs (env : Env) (s : EngState) :
    (checkCancel env s).fs = s.fs := rfl
@[simp] theorem checkCancel_errors (env : Env) (s : EngState) :
    (checkCancel env s).errors = s.errors := rfl
@[simp] theorem checkCancel_warnings (env : Env) (s : EngState) :
    (checkCancel env s).warnings = s.warnings := rfl
@[simp] theorem checkCancel_filesDone (env : Env) (s : EngState) :
    (checkCancel env s).filesDone = s.filesDone := rfl
@[simp] theorem checkCancel_snaps (env : Env) (s : EngState) :
    (checkCancel env s).snaps = s.snaps := rfl
@[simp] theorem checkCancel_ovBytes (env : Env) (s : EngState) :
    (checkCancel env s).ovBytes = s.ovBytes := rfl
@[simp] theorem checkCancel_ovTotal (env : Env) (s : EngState) :
    (checkCancel env s).ovTotal = s.ovTotal := rfl
@[simp] theorem checkCancel_curBytes (env : Env) (s : EngState) :
    (checkCancel env s).curBytes = s.curBytes := rfl
@[simp] theorem checkCancel_curTotal (env : Env) (s : EngState) :
    (checkCancel env s).curTotal = s.curTotal := rfl
@[simp] theorem checkCancel_ovPercent (env : Env) (s : EngState) :
    (checkCancel env s).ovPercent = s.ovPercent := rfl
@[simp] theorem checkCancel_curPercent (env : Env) (s : EngState) :
    (checkCancel env s).curPercent = s.curPercent := rfl
theorem checkCancel_cancelled (env : Env) (s : EngState) :
    (checkCancel env s).cancelled = (s.cancelled || env.extCancel s.time) :=
  rfl

@[simp] theorem report_fs (s : EngState) : (report s).fs = s.fs := rfl
@[simp] theorem report_errors (s : EngState) : (report s).errors = s.errors :=
  rfl
@[simp] theorem report_warnings (s : EngState) :
    (report s).warnings = s.warnings := rfl
@[simp] theorem report_filesDone (s : EngState) :
    (report s).filesDone = s.filesDone := rfl
@[simp] theorem report_cancelled (s : EngState) :
    (report s).cancelled = s.cancelled := rfl
@[simp] theorem report_ovBytes (s : EngState) :
    (report s).ovBytes = s.ovBytes := rfl
@[simp] theorem report_ovTotal (s : EngState) :
    (report s).ovTotal = s.ovTotal := rfl
@[simp] theorem report_snaps (s : EngState) :
    (report s).snaps = s.snaps ++ [mkSnap s] := rfl

@[simp] theorem addError_errors (msg : String) (s : EngState) :
    (addError msg s).errors = s.errors ++ [msg] := rfl
@[simp] theorem addError_cancelled (msg : String) (s : EngState) :
    (addError msg s).cancelled = s.cancelled := rfl
@[simp] theorem addError_filesDone (msg : String) (s : EngState) :
    (addError msg s).filesDone = s.filesDone := rfl
@[simp] theorem addError_fs (msg : String) (s : EngState) :
    (addError msg s).fs = s.fs := rfl
@[simp] theorem addError_warnings (msg : String) (s : EngState) :
    (addError msg s).warnings = s.warnings := rfl
@[simp] theorem addError_snaps (msg : String) (s : EngState) :
    (addError msg s).snaps = s.snaps := rfl

@[simp] theorem addWarning_errors (msg : String) (s : EngState) :
    (addWarning msg s).errors = s.errors := rfl
@[simp] theorem addWarning_warnings (msg : String) (s : EngState) :
    (addWarning msg s).warnings = s.warnings ++ [msg] := rfl
@[simp] theorem addWarning_cancelled (msg : String) (s : EngState) :
    (addWarning msg s).cancelled = s.cancelled := rfl
@[simp] theorem addWarning_filesDone (msg : String) (s : EngState) :
    (addWarning msg s).filesDone = s.filesDone := rfl
@[simp] theorem addWarning_fs (msg : String) (s : EngState) :
    (addWarning msg s).fs = s.fs := rfl
@[simp] theorem addWarning_snaps (msg : String) (s : EngState) :
    (addWarning msg s).snaps = s.snaps := rfl

end StateLemmas

section ClaimC3

@[simp] theorem withFs_fs (f : Node) (s : EngState) : (withFs f s).fs = f :=
  rfl
@[simp] theorem withFs_errors (f : Node) (s : EngState) :
    (withFs f s).errors = s.errors := rfl
@[simp] theorem withFs_cancelled (f : Node) (s : EngState) :
    (withFs f s).cancelled = s.cancelled := rfl
@[simp] theorem withFs_filesDone (f : Node) (s : EngState) :
    (withFs f s).filesDone = s.filesDone := rfl
@[simp] theorem withFs_warnings (f : Node) (s : EngState) :
    (withFs f s).warnings = s.warnings := rfl

@[simp] theorem deleteStepState_errors (env : Env) (total : Nat) (it : Path)
    (i : Nat) (s : EngState) :
    (deleteStepState env total it i s).errors = s.errors := rfl
@[simp] theorem deleteStepState_cancelled (env : Env) (total : Nat)
    (it : Path) (i : Nat) (s : EngState) :
    (deleteStepState env total it i s).cancelled =
      (checkCancel env s).cancelled := rfl
@[simp] theorem deleteStepState_filesDone (env : Env) (total : Nat)
    (it : Path) (i : Nat) (s : EngState) :
    (deleteStepState env total it i s).filesDone = i + 1 := rfl
@[simp] theorem deleteStepState_fs (env : Env) (total : Nat) (it : Path)
    (i : Nat) (s : EngState) :
    (deleteStepState env total it i s).fs = s.fs := rfl
@[simp] theorem deleteStepState_warnings (env : Env) (total : Nat) (it : Path)
    (i : Nat) (s : EngState) :
    (deleteStepState env total it i s).warnings = s.warnings := rfl

/-- The inductive contract of the per-item delete loop: errors only
grow; the loop succeeds exactly when it started successful, appended no
error and was never cancelled; when it ends uncancelled every item was
processed (files_done counts them all, failures included); files_done
never exceeds the batch size. -/
theorem deleteLoop_spec (env : Env) (ut : Bool) (total : Nat) :
    ∀ (items : List Path) (i : Nat) (s : EngState) (success : Bool),
    (∃ tail, (deleteLoop env ut total items i s success).1.errors =
       s.errors ++ tail) ∧
    ((deleteLoop env ut total items i s success).2 = true →
       success = true ∧
       (deleteLoop env ut total items i s success).1.errors = s.errors) ∧
    (success = true →
       (deleteLoop env ut total items i s success).1.errors = s.errors →
       (deleteLoop env ut total items i s success).1.cancelled = false →
       (deleteLoop env ut total items i s success).2 = true) ∧
    ((deleteLoop env ut total items i s success).1.cancelled = false →
       (deleteLoop env ut total items i s success).1.filesDone =
         (if items.isEmpty then s.filesDone else i + items.length)) ∧
    (s.filesDone ≤ i →
       (deleteLoop env ut total items i s success).1.filesDone ≤
         i + items.length) := by
  intro items
  induction items with
  | nil =>
    intro i s success
    refine ⟨⟨[], by simp [deleteLoop]⟩, ?_, ?_, ?_, ?_⟩
    · intro h
      exact ⟨by simpa [deleteLoop] using h, by simp [deleteLoop]⟩
    · intro h _ _
      simpa [deleteLoop] using h
    · intro _
      simp [deleteLoop]
    · intro hle
      simpa [deleteLoop] using hle
  | cons it rest ih =>
    intro i s success
    by_cases hcan : (checkCancel env s).cancelled = true
    · have hred : deleteLoop env ut total (it :: rest) i s success =
          (checkCancel env s, false) := by
        simp only [deleteLoop, hcan, if_true]
      rw [hred]
      refine ⟨⟨[], by simp⟩, ?_, ?_, ?_, ?_⟩
      · intro h; simp at h
      · intro _ _ hc; rw [hcan] at hc; simp at hc
      · intro hc; rw [hcan] at hc; simp at hc
      · intro hle; simp; omega
    · have hcan' : (checkCancel env s).cancelled = false := by
        cases h : (checkCancel env s).cancelled
        · rfl
        · exact absurd h hcan
      match hdi : deleteItem (deleteStepState env total it i s).fs ut it with
      | (fs', false) =>
        have hred : deleteLoop env ut total (it :: rest) i s success =
            deleteLoop env ut total rest (i + 1)
              (withFs fs' (deleteStepState env total it i s)) success := by
          simp only [deleteLoop, hcan', Bool.false_eq_true, if_false, hdi]
        rw [hred]
        obtain ⟨⟨tail, ha⟩, hb1, hb2, hd, he⟩ := ih (i + 1)
          (withFs fs' (deleteStepState env total it i s)) success
        refine ⟨⟨tail, by simpa using ha⟩, ?_, ?_, ?_, ?_⟩
        · intro h
          obtain ⟨h1, h2⟩ := hb1 h
          exact ⟨h1, by simpa using h2⟩
        · intro h1 h2 h3
          exact hb2 h1 (by simpa using h2) h3
        · intro h1
          rw [hd h1]
          by_cases hr : rest.isEmpty
          · have hr0 : rest = [] := by
              cases rest
              · rfl
              · simp at hr
            subst hr0
            simp
          · simp only [hr, Bool.false_eq_true, if_false, List.isEmpty_cons,
              List.length_cons]
            have : rest.length ≠ 0 := by
              cases rest
              · simp at hr
              · simp
            omega
        · intro hle
          have := he (by simp)
          simp only [List.length_cons]
          omega
      | (fs', true) =>
        have hred : deleteLoop env ut total (it :: rest) i s success =
            deleteLoop env ut total rest (i + 1)
              (addError ("Cannot delete " ++ basename it)
                (deleteStepState env total it i s)) false := by
          simp only [deleteLoop, hcan', Bool.false_eq_true, if_false, hdi]
        rw [hred]
        obtain ⟨⟨tail, ha⟩, hb1, hb2, hd, he⟩ := ih (i + 1)
          (addError ("Cannot delete " ++ basename it)
            (deleteStepState env total it i s)) false
        refine ⟨⟨("Cannot delete " ++ basename it) :: tail, ?_⟩, ?_, ?_, ?_, ?_⟩
        · rw [ha]; simp
        · intro h
          obtain ⟨h1, _⟩ := hb1 h
          simp at h1
        · intro _ h2 _
          exfalso
          rw [ha] at h2
          simp only [addError_errors, deleteStepState_errors,
            List.append_assoc] at h2
          have := congrArg List.length h2
          simp at this
        · intro h1
          rw [hd h1]
          by_cases hr : rest.isEmpty
          · have hr0 : rest = [] := by
              cases rest
              · rfl
              · simp at hr
            subst hr0
            simp
          · simp only [hr, Bool.false_eq_true, if_false, List.isEmpty_cons,
              List.length_cons]
            have : rest.length ≠ 0 := by
              cases rest
              · simp at hr
              · simp
            omega
        · intro hle
          have := he (by simp)
          simp only [List.length_cons]
          omega

/-- The contract of the delete loop-plus-epilogue from any reset start
state: the call returns true exactly when no error was recorded during
the run and the run ended uncancelled; an uncancelled run processed
every item (failures included); files_done never exceeds the batch
size. -/
theorem deleteFinish_errors (env : Env) (s1 : EngState) (b : Bool) :
    (deleteFinish env s1 b).1.errors = s1.errors := by
  unfold deleteFinish
  by_cases h : (checkCancel env s1).cancelled
  · simp [h]
  · simp [h]

theorem deleteFinish_filesDone (env : Env) (s1 : EngState) (b : Bool) :
    (deleteFinish env s1 b).1.filesDone = s1.filesDone := by
  unfold deleteFinish
  by_cases h : (checkCancel env s1).cancelled
  · simp [h]
  · simp [h]

theorem deleteFinish_cancelled_back (env : Env) (s1 : EngState) (b : Bool)
    (h : (deleteFinish env s1 b).1.cancelled = false) :
    s1.cancelled = false := by
  by_cases hc : (checkCancel env s1).cancelled = true
  · exfalso
    have h4 : (deleteFinish env s1 b).1.cancelled = true := by
      simp only [deleteFinish, hc, if_true, checkCancel_cancelled]
      simp
    rw [h4] at h
    exact absurd h (by simp)
  · rw [checkCancel_cancelled] at hc
    cases hcv : s1.cancelled
    · rfl
    · exact absurd (by rw [hcv]; rfl :
        (s1.cancelled || env.extCancel s1.time) = true) hc

theorem deleteFinish_snd (env : Env) (s1 : EngState) (b : Bool) :
    (deleteFinish env s1 b).2 =
      (b && !(deleteFinish env s1 b).1.cancelled) := rfl

/-- The contract of the delete loop-plus-epilogue from any reset start
state: the call returns true exactly when no error was recorded during
the run and the run ended uncancelled; an uncancelled run processed
every item (failures included); files_done never exceeds the batch
size. -/
theorem deleteTail_contract (env : Env) (items : List Path) (ut : Bool)
    (sL : EngState) (hE : sL.errors = []) (hC : sL.cancelled = false)
    (hF : sL.filesDone = 0) :
    ((deleteTail env items ut sL).2 = true ↔
      ((deleteTail env items ut sL).1.errors = [] ∧
       (deleteTail env items ut sL).1.cancelled = false)) ∧
    ((deleteTail env items ut sL).1.cancelled = false →
      (deleteTail env items ut sL).1.filesDone = items.length) ∧
    (deleteTail env items ut sL).1.filesDone ≤ items.length := by
  obtain ⟨⟨tail, ha⟩, hb1, hb2, hd, he⟩ :=
    deleteLoop_spec env ut items.length items 0 sL true
  match hr : deleteLoop env ut items.length items 0 sL true with
  | (s1, success) =>
    rw [hr] at ha hb1 hb2 hd he
    have hred : deleteTail env items ut sL = deleteFinish env s1 success := by
      unfold deleteTail
      rw [hr]
    rw [hred]
    refine ⟨?_, ?_, ?_⟩
    · constructor
      · intro h
        rw [deleteFinish_snd] at h
        simp only [Bool.and_eq_true, Bool.not_eq_true'] at h
        obtain ⟨h1, h2⟩ := h
        obtain ⟨_, herr⟩ := hb1 h1
        exact ⟨by rw [deleteFinish_errors, herr, hE], h2⟩
      · intro ⟨h1, h2⟩
        have hs1c : s1.cancelled = false := deleteFinish_cancelled_back _ _ _ h2
        rw [deleteFinish_errors] at h1
        have hsuc : success = true := by
          simpa using hb2 rfl (by rw [h1, hE]) hs1c
        rw [deleteFinish_snd, h2, hsuc]
        rfl
    · intro h4
      have hs1c : s1.cancelled = false := deleteFinish_cancelled_back _ _ _ h4
      have hfd := hd hs1c
      rw [deleteFinish_filesDone, hfd]
      by_cases hi : items.isEmpty
      · have : items = [] := by
          cases items
          · rfl
          · simp at hi
        subst this
        simp [hF]
      · simp [hi]
    · have hle := he (by omega)
      simp only [] at hle
      rw [deleteFinish_filesDone]
      omega

/-- Claim C3: for every delete batch, per-item failures append an error
and the loop continues (an uncancelled run processes the whole batch:
files_done = number of items, failures included), cancellation stops
the batch early (files_done never exceeds the batch size), and delete
returns true exactly when the errors list received no entry during the
run and the run ended uncancelled. -/
theorem c3_delete_contract (env : Env) (items : List Path)
    (useTrash : Bool) (s : EngState) :
    ((delete env items useTrash s).2 = true ↔
      ((delete env items useTrash s).1.errors = [] ∧
       (delete env items useTrash s).1.cancelled = false)) ∧
    ((delete env items useTrash s).1.cancelled = false →
      (delete env items useTrash s).1.filesDone = items.length) ∧
    (delete env items useTrash s).1.filesDone ≤ items.length := by
  unfold delete
  cases useTrash
  · simp only [Bool.false_eq_true, if_false]
    exact deleteTail_contract env items false _ rfl rfl rfl
  · simp only [if_true]
    by_cases hpe : pexists { clearFlags (resetProgress s) with
        filesTotal := items.length }.fs trashPath
    · rw [if_pos hpe]
      exact deleteTail_contract env items true _ rfl rfl rfl
    · rw [if_neg hpe]
      match hm : mkdirAll trashPath { clearFlags (resetProgress s) with
          filesTotal := items.length }.fs with
      | some fs2 =>
        rw [hm]
        exact deleteTail_contract env items true
          (withFs fs2 { clearFlags (resetProgress s) with
            filesTotal := items.length }) rfl rfl rfl
      | none =>
        rw [hm]
        exact deleteTail_contract env items false
          { clearFlags (resetProgress s) with filesTotal := items.length }
          rfl rfl rfl

/-- Witness for C3 on a concrete batch: the first item's unlink is
flagged to fail, the second is removable; the run keeps going (both
items processed), records the error, and returns false. -/
theorem c3_delete_contract_witness :
    (delete Env.quiet [["x"], ["y"]] false
      (initState (.dir [("x", .file [1] 420 0 false true),
        ("y", .file [2] 420 0 false false)] 493 0 true false)
        false)).1.filesDone = 2 ∧
    (delete Env.quiet [["x"], ["y"]] false
      (initState (.dir [("x", .file [1] 420 0 false true),
        ("y", .file [2] 420 0 false false)] 493 0 true false)
        false)).2 = false :=
  ⟨(c3_delete_contract Env.quiet [["x"], ["y"]] false
      (initState (.dir [("x", .file [1] 420 0 false true),
        ("y", .file [2] 420 0 false false)] 493 0 true false)
        false)).2.1 rfl,
   by
    have h := (c3_delete_contract Env.quiet [["x"], ["y"]] false
      (initState (.dir [("x", .file [1] 420 0 false true),
        ("y", .file [2] 420 0 false false)] 493 0 true false) false)).1
    cases hv : (delete Env.quiet [["x"], ["y"]] false
      (initState (.dir [("x", .file [1] 420 0 false true),
        ("y", .file [2] 420 0 false false)] 493 0 true false) false)).2
    · rfl
    · have := (h.mp hv).1
      rw [show (delete Env.quiet [["x"], ["y"]] false
        (initState (.dir [("x", .file [1] 420 0 false true),
          ("y", .file [2] 420 0 false false)] 493 0 true false)
          false)).1.errors = ["Cannot delete x"] from rfl] at this
      exact absurd this (by simp)⟩

end ClaimC3

section ClaimC4

/-- Claim C4, counterexample: a copy_file call with verify=true that is
cancelled after the first of two chunks returns false with the partial
one-byte destination left in place and its content different from the
source, and no error recorded - neither arm of the claim's disjunction
holds (hashes differ, yet nothing was recorded or deleted), because
cancellation aborts before verification ever runs (line 280-282). -/
theorem c4_counterexample :
    (copy_file ⟨fun t => decide (2 ≤ t), fun _ => false⟩ 1 true true
      ["a"] ["d", "b"]
      (initState (.dir [("a", .file [1, 2] 420 0 false false),
        ("d", .dir [] 493 0 true false)] 493 0 true false) false)).2 =
      false ∧
    readContent (copy_file ⟨fun t => decide (2 ≤ t), fun _ => false⟩ 1 true
      true ["a"] ["d", "b"]
      (initState (.dir [("a", .file [1, 2] 420 0 false false),
        ("d", .dir [] 493 0 true false)] 493 0 true false) false)).1.fs
      ["d", "b"] = some [1] ∧
    readContent (copy_file ⟨fun t => decide (2 ≤ t), fun _ => false⟩ 1 true
      true ["a"] ["d", "b"]
      (initState (.dir [("a", .file [1, 2] 420 0 false false),
        ("d", .dir [] 493 0 true false)] 493 0 true false) false)).1.fs
      ["a"] = some [1, 2] ∧
    (copy_file ⟨fun t => decide (2 ≤ t), fun _ => false⟩ 1 true true
      ["a"] ["d", "b"]
      (initState (.dir [("a", .file [1, 2] 420 0 false false),
        ("d", .dir [] 493 0 true false)] 493 0 true false) false)).1.errors
      = [] := by
  exact ⟨rfl, rfl, rfl, rfl⟩

theorem verify_file_eq_contents (root : Node) (f1 f2 : Path) :
    verify_file root f1 f2 = true ↔
      ∃ c, readContent root f1 = some c ∧ readContent root f2 = some c := by
  unfold verify_file
  match h1 : readContent root f1, h2 : readContent root f2 with
  | some a, some b =>
    simp only [Option.some.injEq, beq_iff_eq]
    constructor
    · intro h; exact ⟨b, h, rfl⟩
    · rintro ⟨c, hc1, hc2⟩; exact hc1.trans hc2.symm
  | some a, none => simp
  | none, _ => simp

theorem getChild_delChild_self (cs : List (String × Node)) (name : String) :
    getChild (delChild cs name) name = none := by
  unfold getChild delChild
  have h : List.find? (fun c => c.1 == name)
      (List.filter (fun c => c.1 != name) cs) = none := by
    rw [List.find?_eq_none]
    intro a ha
    have hmem := (List.mem_filter.mp ha).2
    simp only [bne_iff_ne, ne_eq] at hmem
    simp [hmem]
  rw [h]

theorem getNode_eraseNode_self :
    ∀ (p : Path) (root : Node), p ≠ [] → (getNode p root).isSome = true →
      getNode p (eraseNode p root) = none := by
  intro p
  induction p with
  | nil => intro root hp _; exact absurd rfl hp
  | cons name rest ih =>
    intro root hp hsome
    cases root with
    | file c m d sf uf => simp [getNode] at hsome
    | symlink t dv => simp [getNode] at hsome
    | dir cs m d a r =>
      cases rest with
      | nil =>
        simp [eraseNode, getNode, getChild_delChild_self]
      | cons r1 r2 =>
        simp only [getNode] at hsome
        match hg : getChild cs name with
        | none => rw [hg] at hsome; simp at hsome
        | some child =>
          rw [hg] at hsome
          simp only [eraseNode, getNode, hg, getChild_setChild_self]
          exact ih child (by simp) hsome

theorem openWrite_nonlink (root : Node) (p q : Path) (r : Node)
    (hnl : islink root p = false) (h : openWrite root p = some (q, r)) :
    q = p := by
  unfold openWrite at h
  unfold islink at hnl
  match hg : getNode p root with
  | some (.symlink t dv) => simp [hg] at hnl
  | some (.dir cs2 m2 d2 a2 r2) => simp [hg] at h
  | some (.file c m d sf uf) =>
    simp only [hg] at h
    match hput : putNode p (.file [] m d sf uf) root with
    | some r2 =>
      simp only [hput, Option.some.injEq, Prod.mk.injEq] at h
      exact h.1.symm
    | none => simp [hput] at h
  | none =>
    simp only [hg] at h
    match hgp : getNode (dirname p) root with
    | some (.dir cs2 m2 d2 a2 rf2) =>
      simp only [hgp] at h
      match hput : putNode p (.file [] 420 d2 false false) root with
      | some r3 =>
        simp only [hput, Option.some.injEq, Prod.mk.injEq] at h
        exact h.1.symm
      | none => simp [hput] at h
    | some (.file _ _ _ _ _) => simp [hgp] at h
    | some (.symlink _ _) => simp [hgp] at h
    | none => simp [hgp] at h

/-- Claim C4, amended, part of the contract proved here: (i) a
copy_file call with verify=true that returns true leaves source and
destination with equal content digests (stated for a destination whose
parent directory exists and which is not itself a symlink); (ii) the
verification tail (lines 356-374) is a strict dichotomy: on a matching
digest it changes nothing and succeeds, on a mismatch or unreadable
file it records the verification error, replaces the filesystem by the
attempted-removal result and fails; (iii) the attempted removal really
deletes the destination whenever its unlink is not itself flagged to
fail (the source swallows a failed unlink, line 369, in which case the
mismatched copy survives).  A call aborted by cancellation or an I/O
error never reaches verification and may leave a partial destination
with no verification error, as the counterexample shows. -/
theorem c4_verify_dichotomy :
    (∀ (env : Env) (buf : Nat) (pp : Bool) (src dst : Path)
      (s s' : EngState),
      pexists s.fs (dirname dst) = true → islink s.fs dst = false →
      copy_file env buf true pp src dst s = (s', true) →
      ∃ c, readContent s'.fs src = some c ∧
        readContent s'.fs dst = some c) ∧
    (∀ (s : EngState) (src dst : Path),
      (verify_file s.fs src dst = true → verifySection src dst s = (s, true)) ∧
      (verify_file s.fs src dst = false →
        (verifySection src dst s).2 = false ∧
        (verifySection src dst s).1.errors =
          s.errors ++ ["Verification failed: " ++ basename src] ∧
        (verifySection src dst s).1.fs = osRemoveQuiet s.fs dst)) ∧
    (∀ (root : Node) (p : Path) (c : List Nat) (m d : Nat) (sf : Bool),
      p ≠ [] → getNode p root = some (.file c m d sf false) →
      getNode p (osRemoveQuiet root p) = none) := by
  refine ⟨?_, ?_, ?_⟩
  · intro env buf pp src dst s s' hpe hnl h
    simp only [copy_file, apply_ite EngState.fs, addWarning_fs, ite_self, hpe,
      if_true] at h
    split at h
    · simp at h
    · rename_i fileSize hgs
      split at h
      · simp at h
      · rename_i content hrc
        split at h
        · simp at h
        · rename_i dstReal fs2 how
          split at h
          · simp at h
          · rename_i s2 hcc
            have hq : dstReal = dst :=
              openWrite_nonlink s.fs dst dstReal fs2 hnl how
            subst dstReal
            rw [verifySection] at h
            split at h
            · rename_i hvf
              injection h with h1 h2
              subst h1
              exact (verify_file_eq_contents _ src dst).mp hvf
            · simp at h
  · intro s src dst
    constructor
    · intro hv
      unfold verifySection
      rw [if_pos hv]
    · intro hv
      unfold verifySection
      rw [if_neg (by simp [hv])]
      exact ⟨rfl, rfl, rfl⟩
  · intro root p c m d sf hp hg
    unfold osRemoveQuiet
    rw [hg]
    exact getNode_eraseNode_self p root hp (by simp [hg])

/-- Witness for C4's amended theorem: a quiet verified copy of a 3-byte
file into an existing directory returns true with source and
destination contents both equal. -/
theorem c4_verify_dichotomy_witness :
    ∃ c, readContent (copy_file Env.quiet 2 true true ["a"] ["d", "b"]
      (initState (.dir [("a", .file [1, 2, 3] 420 0 false false),
        ("d", .dir [] 493 0 true false)] 493 0 true false) false)).1.fs
      ["a"] = some c ∧
    readContent (copy_file Env.quiet 2 true true ["a"] ["d", "b"]
      (initState (.dir [("a", .file [1, 2, 3] 420 0 false false),
        ("d", .dir [] 493 0 true false)] 493 0 true false) false)).1.fs
      ["d", "b"] = some c :=
  c4_verify_dichotomy.1 Env.quiet 2 true ["a"] ["d", "b"]
    (initState (.dir [("a", .file [1, 2, 3] 420 0 false false),
      ("d", .dir [] 493 0 true false)] 493 0 true false) false)
    (copy_file Env.quiet 2 true true ["a"] ["d", "b"]
      (initState (.dir [("a", .file [1, 2, 3] 420 0 false false),
        ("d", .dir [] 493 0 true false)] 493 0 true false) false)).1
    rfl rfl rfl

end ClaimC4

section ClaimC6

/-- Claim C6, counterexample: a move that succeeds through the rename
pass (_try_rename_move, lines 623-644) completes normally - it returns
true with the cancel flag clear - yet delivers no progress snapshot at
all: neither _try_rename_move nor the rename branch of move (lines
607-611) ever calls report_progress, so the callback is not invoked
with a terminal 100-percent snapshot on this normal completion. -/
theorem c6_counterexample :
    (move Env.quiet 8 9 [["x"]] ["d"] true
      (initState (.dir [("x", .file [7] 420 0 false false),
        ("d", .dir [] 493 0 true false)] 493 0 true false) false)).2 =
      true ∧
    (move Env.quiet 8 9 [["x"]] ["d"] true
      (initState (.dir [("x", .file [7] 420 0 false false),
        ("d", .dir [] 493 0 true false)] 493 0 true false) false)).1.cancelled
      = false ∧
    (move Env.quiet 8 9 [["x"]] ["d"] true
      (initState (.dir [("x", .file [7] 420 0 false false),
        ("d", .dir [] 493 0 true false)] 493 0 true false) false)).1.snaps
      = [] := ⟨rfl, rfl, rfl⟩

@[simp] theorem mkSnap_ovBytes (s : EngState) :
    (mkSnap s).ovBytes = s.ovBytes := rfl
@[simp] theorem mkSnap_completed (s : EngState) :
    (mkSnap s).completed = s.filesDone := rfl
@[simp] theorem mkSnap_overallPercent (s : EngState) :
    (mkSnap s).overallPercent = s.ovPercent := rfl
@[simp] theorem mkSnap_percent (s : EngState) :
    (mkSnap s).percent = s.curPercent := rfl

theorem snapLE_of_le {a b : Snap} (h1 : a.ovBytes ≤ b.ovBytes)
    (h2 : a.completed ≤ b.completed) : snapLE a b = true := by
  simp [snapLE, h1, h2]

theorem snapLE_le {a b : Snap} (h : snapLE a b = true) :
    a.ovBytes ≤ b.ovBytes ∧ a.completed ≤ b.completed := by
  simpa [snapLE] using h

theorem snapsMono_append_one (l : List Snap) (x : Snap)
    (hm : snapsMono l = true)
    (hb : ∀ sn, l.getLast? = some sn → snapLE sn x = true) :
    snapsMono (l ++ [x]) = true := by
  induction l with
  | nil => rfl
  | cons a r ih =>
    cases r with
    | nil =>
      have hx : snapLE a x = true := hb a (by simp)
      simp [snapsMono, hx]
    | cons b r2 =>
      simp only [snapsMono, Bool.and_eq_true] at hm
      have ih2 := ih hm.2 (fun sn h => hb sn (by
        rw [List.getLast?_cons_cons]; exact h))
      simp only [List.cons_append] at ih2 ⊢
      simp only [snapsMono, Bool.and_eq_true]
      exact ⟨hm.1, by simpa using ih2⟩

theorem snapOK_of_counters {s s' : EngState} (h : snapOK s = true)
    (hs : s'.snaps = s.snaps) (h1 : s.ovBytes ≤ s'.ovBytes)
    (h2 : s.filesDone ≤ s'.filesDone) : snapOK s' = true := by
  unfold snapOK at h ⊢
  rw [hs]
  match hl : s.snaps.getLast? with
  | none => simp
  | some sn =>
    rw [hl] at h
    simp only [Option.map, Option.getD] at h ⊢
    obtain ⟨g1, g2⟩ := snapLE_le h
    exact snapLE_of_le (by simpa using le_trans g1 h1)
      (by simpa using le_trans g2 h2)

theorem SInv_parts {s : EngState} (h : SInv s = true) :
    snapsMono s.snaps = true ∧ snapOK s = true := by
  simpa [SInv, Bool.and_eq_true] using h

theorem SInv_of_parts {s : EngState} (h1 : snapsMono s.snaps = true)
    (h2 : snapOK s = true) : SInv s = true := by
  simp [SInv, h1, h2]

theorem SStep_of {s s' : EngState} (hs : s'.snaps = s.snaps)
    (hb : s.ovBytes ≤ s'.ovBytes) (hd : s.filesDone ≤ s'.filesDone) :
    SStep s s' := by
  refine ⟨fun h => ?_, hb, hd⟩
  obtain ⟨h1, h2⟩ := SInv_parts h
  exact SInv_of_parts (by rw [hs]; exact h1)
    (snapOK_of_counters h2 hs hb hd)

theorem SStep_refl (s : EngState) : SStep s s :=
  SStep_of rfl (le_refl _) (le_refl _)

theorem SStep_trans {a b c : EngState} (h1 : SStep a b) (h2 : SStep b c) :
    SStep a c :=
  ⟨fun h => h2.1 (h1.1 h), le_trans h1.2.1 h2.2.1, le_trans h1.2.2 h2.2.2⟩

theorem SInv_report {s : EngState} (h : SInv s = true) :
    SInv (report s) = true := by
  obtain ⟨hm, hk⟩ := SInv_parts h
  refine SInv_of_parts ?_ ?_
  · rw [report_snaps]
    refine snapsMono_append_one _ _ hm ?_
    intro sn hsn
    unfold snapOK at hk
    rw [hsn] at hk
    simpa using hk
  · unfold snapOK
    rw [report_snaps, List.getLast?_concat]
    simp only [Option.map, Option.getD]
    exact snapLE_of_le (by simp) (by simp)

theorem report_getLast (s : EngState) :
    (report s).snaps.getLast? = some (mkSnap s) := by
  rw [report_snaps, List.getLast?_concat]

theorem SStep_report (s : EngState) : SStep s (report s) :=
  ⟨SInv_report, le_refl _, le_refl _⟩

theorem SStep_checkCancel (env : Env) (s : EngState) :
    SStep s (checkCancel env s) :=
  SStep_of (checkCancel_snaps env s) (le_of_eq (checkCancel_ovBytes env s).symm)
    (le_of_eq (checkCancel_filesDone env s).symm)

theorem SStep_addError (m : String) (s : EngState) : SStep s (addError m s) :=
  SStep_of rfl (le_refl _) (le_refl _)

theorem SStep_addWarning (m : String) (s : EngState) :
    SStep s (addWarning m s) :=
  SStep_of rfl (le_refl _) (le_refl _)

theorem SStep_withFs (f : Node) (s : EngState) : SStep s (withFs f s) :=
  SStep_of rfl (le_refl _) (le_refl _)

@[simp] theorem updPercents_snaps (f : Nat) (s : EngState) :
    (updPercents f s).snaps = s.snaps := by
  simp only [updPercents]; split <;> split <;> rfl
@[simp] theorem updPercents_ovBytes (f : Nat) (s : EngState) :
    (updPercents f s).ovBytes = s.ovBytes := by
  simp only [updPercents]; split <;> split <;> rfl
@[simp] theorem updPercents_filesDone (f : Nat) (s : EngState) :
    (updPercents f s).filesDone = s.filesDone := by
  simp only [updPercents]; split <;> split <;> rfl
@[simp] theorem updPercents_curBytes (f : Nat) (s : EngState) :
    (updPercents f s).curBytes = s.curBytes := by
  simp only [updPercents]; split <;> split <;> rfl
@[simp] theorem updPercents_curTotal (f : Nat) (s : EngState) :
    (updPercents f s).curTotal = s.curTotal := by
  simp only [updPercents]; split <;> split <;> rfl
@[simp] theorem updPercents_ovTotal (f : Nat) (s : EngState) :
    (updPercents f s).ovTotal = s.ovTotal := by
  simp only [updPercents]; split <;> split <;> rfl
@[simp] theorem updPercents_fs (f : Nat) (s : EngState) :
    (updPercents f s).fs = s.fs := by
  simp only [updPercents]; split <;> split <;> rfl
@[simp] theorem updPercents_cancelled (f : Nat) (s : EngState) :
    (updPercents f s).cancelled = s.cancelled := by
  simp only [updPercents]; split <;> split <;> rfl
@[simp] theorem updPercents_errors (f : Nat) (s : EngState) :
    (updPercents f s).errors = s.errors := by
  simp only [updPercents]; split <;> split <;> rfl
@[simp] theorem updPercents_warnings (f : Nat) (s : EngState) :
    (updPercents f s).warnings = s.warnings := by
  simp only [updPercents]; split <;> split <;> rfl
@[simp] theorem updPercents_time (f : Nat) (s : EngState) :
    (updPercents f s).time = s.time := by
  simp only [updPercents]; split <;> split <;> rfl

theorem SStep_updPercents (f : Nat) (s : EngState) :
    SStep s (updPercents f s) :=
  SStep_of (updPercents_snaps f s) (le_of_eq (updPercents_ovBytes f s).symm)
    (le_of_eq (updPercents_filesDone f s).symm)

theorem renameLoop_snaps (env : Env) (dest : Path) :
    ∀ (items : List Path) (s : EngState),
      (renameLoop env dest items s).1.snaps = s.snaps := by
  intro items
  induction items with
  | nil => intro s; rfl
  | cons it rest ih =>
    intro s
    simp only [renameLoop, checkCancel_fs]
    by_cases hc : (checkCancel env s).cancelled = true
    · simp [hc]
    · rw [if_neg hc]
      by_cases hp : pexists s.fs (dest ++ [basename it]) = true
      · simp [hp]
      · rw [if_neg hp]
        match hr : osRename s.fs it (dest ++ [basename it]) with
        | some fs' => simp [hr, ih]
        | none => simp [hr]

@[simp] theorem addWarning_ovBytes (m : String) (s : EngState) :
    (addWarning m s).ovBytes = s.ovBytes := rfl
@[simp] theorem addWarning_ovTotal (m : String) (s : EngState) :
    (addWarning m s).ovTotal = s.ovTotal := rfl
@[simp] theorem addWarning_curBytes (m : String) (s : EngState) :
    (addWarning m s).curBytes = s.curBytes := rfl
@[simp] theorem addWarning_curTotal (m : String) (s : EngState) :
    (addWarning m s).curTotal = s.curTotal := rfl
@[simp] theorem addWarning_ovPercent (m : String) (s : EngState) :
    (addWarning m s).ovPercent = s.ovPercent := rfl
@[simp] theorem addWarning_curPercent (m : String) (s : EngState) :
    (addWarning m s).curPercent = s.curPercent := rfl
@[simp] theorem addError_ovBytes (m : String) (s : EngState) :
    (addError m s).ovBytes = s.ovBytes := rfl
@[simp] theorem addError_ovTotal (m : String) (s : EngState) :
    (addError m s).ovTotal = s.ovTotal := rfl
@[simp] theorem addError_curBytes (m : String) (s : EngState) :
    (addError m s).curBytes = s.curBytes := rfl
@[simp] theorem addError_curTotal (m : String) (s : EngState) :
    (addError m s).curTotal = s.curTotal := rfl
@[simp] theorem addError_ovPercent (m : String) (s : EngState) :
    (addError m s).ovPercent = s.ovPercent := rfl
@[simp] theorem addError_curPercent (m : String) (s : EngState) :
    (addError m s).curPercent = s.curPercent := rfl

theorem SStep_fields {s s' : EngState} (hs : s'.snaps = s.snaps)
    (hb : s'.ovBytes = s.ovBytes) (hd : s'.filesDone = s.filesDone) :
    SStep s s' :=
  SStep_of hs (le_of_eq hb.symm) (le_of_eq hd.symm)

theorem SStep_bumpDone (s : EngState) :
    SStep s { s with filesDone := s.filesDone + 1 } :=
  SStep_of rfl (le_refl _) (Nat.le_succ _)

theorem SStep_ite_addWarning (c : Prop) [Decidable c] (m : String)
    (s : EngState) : SStep s (if c then addWarning m s else s) := by
  split
  · exact SStep_addWarning m s
  · exact SStep_refl s

theorem SStep_drawTick (env : Env) (s : EngState) :
    SStep s (drawTick env s).1 :=
  SStep_fields rfl rfl rfl

theorem SStep_chunkStep (env : Env) (dst : Path) (fileSize : Nat)
    (chunk : List Nat) (s : EngState) :
    SStep s (chunkStep env dst fileSize chunk s) := by
  simp only [chunkStep]
  refine SStep_trans (SStep_of rfl (Nat.le_add_right _ _) (Nat.le_refl _)
    : SStep s { s with fs := appendToFile s.fs dst chunk,
                       curBytes := s.curBytes + chunk.length,
                       ovBytes := s.ovBytes + chunk.length }) ?_
  refine SStep_trans (SStep_drawTick env _) ?_
  split
  · exact SStep_trans (SStep_updPercents _ _) (SStep_report _)
  · exact SStep_refl _

theorem copyChunks_eq (env : Env) (buf : Nat) (dst : Path) (fileSize : Nat)
    (rem : List Nat) (s : EngState) :
    copyChunks env buf dst fileSize rem s =
      if (checkCancel env s).cancelled = true then (checkCancel env s, false)
      else if (rem.take buf).isEmpty = true then (checkCancel env s, true)
      else
        copyChunks env buf dst fileSize (rem.drop buf)
          (chunkStep env dst fileSize (rem.take buf) (checkCancel env s)) := by
  rw [copyChunks]
  rfl

theorem copyChunks_SStep (env : Env) (buf : Nat) (dst : Path)
    (fileSize : Nat) :
    ∀ (n : Nat) (rem : List Nat) (s : EngState), rem.length ≤ n →
      SStep s (copyChunks env buf dst fileSize rem s).1 := by
  intro n
  induction n with
  | zero =>
    intro rem s hn
    have h0 : rem = [] := List.eq_nil_of_length_eq_zero (Nat.le_zero.mp hn)
    subst h0
    rw [copyChunks_eq]
    by_cases hc : (checkCancel env s).cancelled = true
    · rw [if_pos hc]; exact SStep_checkCancel env s
    · rw [if_neg hc,
        if_pos (by simp : (List.take buf ([] : List Nat)).isEmpty = true)]
      exact SStep_checkCancel env s
  | succ n ih =>
    intro rem s hn
    rw [copyChunks_eq]
    by_cases hc : (checkCancel env s).cancelled = true
    · rw [if_pos hc]; exact SStep_checkCancel env s
    · rw [if_neg hc]
      by_cases he : (rem.take buf).isEmpty = true
      · rw [if_pos he]; exact SStep_checkCancel env s
      · rw [if_neg he]
        refine SStep_trans (SStep_trans (SStep_checkCancel env s)
          (SStep_chunkStep env dst fileSize (rem.take buf) _)) (ih _ _ ?_)
        have hb : buf ≠ 0 := by
          intro h0
          exact he (by simp [h0])
        have hr : rem ≠ [] := by
          intro h0
          exact he (by simp [h0])
        have hb1 : 0 < buf := Nat.pos_of_ne_zero hb
        have hr1 : 0 < rem.length := List.length_pos.mpr hr
        simp only [List.length_drop]
        omega

theorem copyChunks_SStep2 (env : Env) (buf : Nat) (dst : Path)
    (fileSize : Nat) (rem : List Nat) (s s2 : EngState) (b : Bool)
    (h : copyChunks env buf dst fileSize rem s = (s2, b)) : SStep s s2 := by
  have h1 := copyChunks_SStep env buf dst fileSize rem.length rem s
    (le_refl _)
  rw [h] at h1
  exact h1

theorem verifySection_SStep2 (src dst : Path) (sX s' : EngState) (b : Bool)
    (h : verifySection src dst sX = (s', b)) : SStep sX s' := by
  unfold verifySection at h
  split at h
  · injection h with h1 h2
    subst h1
    exact SStep_refl _
  · injection h with h1 h2
    subst h1
    exact SStep_fields rfl rfl rfl

theorem copy_file_SStep (env : Env) (buf : Nat) (v pp : Bool)
    (src dst : Path) (s : EngState) :
    SStep s (copy_file env buf v pp src dst s).1 := by
  rcases hr : copy_file env buf v pp src dst s with ⟨s', b⟩
  simp only [copy_file] at hr
  split at hr
  · injection hr with h1 h2
    subst h1
    exact SStep_fields (by simp [apply_ite EngState.snaps])
      (by simp [apply_ite EngState.ovBytes])
      (by simp [apply_ite EngState.filesDone])
  · rename_i fileSize hgs
    split at hr
    · injection hr with h1 h2
      subst h1
      exact SStep_fields (by simp [apply_ite EngState.snaps])
        (by simp [apply_ite EngState.ovBytes])
        (by simp [apply_ite EngState.filesDone])
    · rename_i fs1 hmk
      split at hr
      · injection hr with h1 h2
        subst h1
        exact SStep_fields (by simp [apply_ite EngState.snaps])
          (by simp [apply_ite EngState.ovBytes])
          (by simp [apply_ite EngState.filesDone])
      · rename_i content hrc
        split at hr
        · injection hr with h1 h2
          subst h1
          exact SStep_fields (by simp [apply_ite EngState.snaps])
            (by simp [apply_ite EngState.ovBytes])
            (by simp [apply_ite EngState.filesDone])
        · rename_i dstReal fs2 how
          split at hr
          · rename_i s2 hch
            injection hr with h1 h2
            subst h1
            refine SStep_trans ?_
              (copyChunks_SStep2 _ _ _ _ _ _ _ _ hch)
            exact SStep_fields (by simp [apply_ite EngState.snaps])
              (by simp [apply_ite EngState.ovBytes])
              (by simp [apply_ite EngState.filesDone])
          · rename_i s2 hch
            split at hr
            · refine SStep_trans ?_ (verifySection_SStep2 _ _ _ _ _ hr)
              refine SStep_trans (SStep_trans ?_
                (copyChunks_SStep2 _ _ _ _ _ _ _ _ hch))
                (SStep_fields rfl rfl rfl)
              exact SStep_fields (by simp [apply_ite EngState.snaps])
                (by simp [apply_ite EngState.ovBytes])
                (by simp [apply_ite EngState.filesDone])
            · injection hr with h1 h2
              subst h1
              refine SStep_trans (SStep_trans ?_
                (copyChunks_SStep2 _ _ _ _ _ _ _ _ hch))
                (SStep_fields rfl rfl rfl)
              exact SStep_fields (by simp [apply_ite EngState.snaps])
                (by simp [apply_ite EngState.ovBytes])
                (by simp [apply_ite EngState.filesDone])

theorem copy_file_SStep2 (env : Env) (buf : Nat) (v pp : Bool)
    (src dst : Path) (s s2 : EngState) (b : Bool)
    (h : copy_file env buf v pp src dst s = (s2, b)) : SStep s s2 := by
  have h1 := copy_file_SStep env buf v pp src dst s
  rw [h] at h1
  exact h1

mutual

/-- The walk of calculate_total_size only reads the cancel flag and
appends warnings: the snapshot log and the two claim counters of its
state component are untouched, whatever the environment does. -/
theorem calcDir_stfields (env : Env) (n : Node) (a : CAcc) :
    (calcDir env n a).st.snaps = a.st.snaps ∧
    (calcDir env n a).st.ovBytes = a.st.ovBytes ∧
    (calcDir env n a).st.filesDone = a.st.filesDone := by
  match n with
  | .file c m d sf uf => by_cases hh : a.halt = true <;> simp [calcDir, hh]
  | .symlink t d => by_cases hh : a.halt = true <;> simp [calcDir, hh]
  | .dir cs m d false rf =>
    by_cases hh : a.halt = true <;> simp [calcDir, hh]
  | .dir cs m d true rf =>
    by_cases hh : a.halt = true
    · simp [calcDir, hh]
    · simp only [calcDir, hh, Bool.false_eq_true, if_false, if_true]
      by_cases hcc : (checkCancel env a.st).cancelled = true
      · simp [hcc]
      · simp only [hcc, Bool.false_eq_true, if_false]
        obtain ⟨g1, g2, g3⟩ := calcChildren_stfields env cs
          { st := checkCancel env a.st, tot := (sumDirFiles cs a.tot a.cnt).1,
            cnt := (sumDirFiles cs a.tot a.cnt).2, halt := false }
        exact ⟨g1.trans rfl, g2.trans rfl, g3.trans rfl⟩
termination_by sizeOf n
decreasing_by all_goals (simp_wf; try omega)

/-- The descent step of calcDir_stfields. -/
theorem calcChildren_stfields (env : Env) (cs : List (String × Node))
    (a : CAcc) :
    (calcChildren env cs a).st.snaps = a.st.snaps ∧
    (calcChildren env cs a).st.ovBytes = a.st.ovBytes ∧
    (calcChildren env cs a).st.filesDone = a.st.filesDone := by
  match cs with
  | [] => exact ⟨rfl, rfl, rfl⟩
  | (nm, c) :: rest =>
    match c with
    | .dir cs2 m d true rf =>
      simp only [calcChildren]
      obtain ⟨h1, h2, h3⟩ := calcDir_stfields env (Node.dir cs2 m d true rf) a
      obtain ⟨g1, g2, g3⟩ := calcChildren_stfields env rest
        (calcDir env (Node.dir cs2 m d true rf) a)
      exact ⟨by rw [g1, h1], by rw [g2, h2], by rw [g3, h3]⟩
    | .dir cs2 m d false rf =>
      simp only [calcChildren]
      exact calcChildren_stfields env rest a
    | .file c2 m d sf uf =>
      simp only [calcChildren]
      exact calcChildren_stfields env rest a
    | .symlink tg d =>
      simp only [calcChildren]
      exact calcChildren_stfields env rest a
termination_by sizeOf cs
decreasing_by all_goals (simp_wf; try omega)

end

/-- calculate_total_size only reads the cancel flag and appends
warnings: snapshot log and the two claim counters pass through. -/
theorem calcItems_stfields (env : Env) :
    ∀ (items : List Path) (s : EngState) (tot cnt : Nat),
      (calcItems env items s tot cnt).1.snaps = s.snaps ∧
      (calcItems env items s tot cnt).1.ovBytes = s.ovBytes ∧
      (calcItems env items s tot cnt).1.filesDone = s.filesDone := by
  intro items
  induction items with
  | nil => intro s tot cnt; exact ⟨rfl, rfl, rfl⟩
  | cons it rest ih =>
    intro s tot cnt
    simp only [calcItems]
    by_cases hc : (checkCancel env s).cancelled = true
    · rw [if_pos hc]
      exact ⟨rfl, rfl, rfl⟩
    · rw [if_neg hc]
      by_cases hf : isfile (checkCancel env s).fs it = true
      · rw [if_pos hf]
        match hg : getsize (checkCancel env s).fs it with
        | some sz =>
          obtain ⟨g1, g2, g3⟩ := ih (checkCancel env s) (tot + sz) (cnt + 1)
          exact ⟨g1.trans rfl, g2.trans rfl, g3.trans rfl⟩
        | none =>
          obtain ⟨g1, g2, g3⟩ := ih
            (addWarning ("Cannot read size: " ++ basename it)
              (checkCancel env s)) tot cnt
          exact ⟨g1.trans rfl, g2.trans rfl, g3.trans rfl⟩
      · rw [if_neg hf]
        by_cases hd : isdir (checkCancel env s).fs it = true
        · rw [if_pos hd]
          match hr : resolveNode (checkCancel env s).fs it with
          | some nd =>
            obtain ⟨d1, d2, d3⟩ := calcDir_stfields env nd
              ⟨checkCancel env s, tot, cnt, false⟩
            obtain ⟨g1, g2, g3⟩ := ih
              (calcDir env nd ⟨checkCancel env s, tot, cnt, false⟩).st
              (calcDir env nd ⟨checkCancel env s, tot, cnt, false⟩).tot
              (calcDir env nd ⟨checkCancel env s, tot, cnt, false⟩).cnt
            exact ⟨(g1.trans d1).trans rfl, (g2.trans d2).trans rfl,
              (g3.trans d3).trans rfl⟩
          | none =>
            obtain ⟨g1, g2, g3⟩ := ih (checkCancel env s) tot cnt
            exact ⟨g1.trans rfl, g2.trans rfl, g3.trans rfl⟩
        · rw [if_neg hd]
          obtain ⟨g1, g2, g3⟩ := ih (checkCancel env s) tot cnt
          exact ⟨g1.trans rfl, g2.trans rfl, g3.trans rfl⟩

/-- copy_directory and its children loop only move the state through
cancel reads, chunk copies, reports and files_done increments: every
such step is an SStep. -/
theorem copyDir_SStep (env : Env) (buf : Nat) (v pp : Bool) :
    ∀ (fuel : Nat),
      (∀ (srcDir dstDir : Path) (s : EngState),
        SStep s (copy_directory env buf v pp fuel srcDir dstDir s).1) ∧
      (∀ (names : List String) (srcDir dstDir : Path) (s : EngState),
        SStep s
          (copyDirChildren env buf v pp fuel srcDir dstDir names s).1) := by
  have hkids : ∀ (fuel : Nat),
      (∀ (srcDir dstDir : Path) (s : EngState),
        SStep s (copy_directory env buf v pp fuel srcDir dstDir s).1) →
      ∀ (names : List String) (srcDir dstDir : Path) (s : EngState),
        SStep s
          (copyDirChildren env buf v pp fuel srcDir dstDir names s).1 := by
    intro fuel hdir
    have hdir2 : ∀ (sd dd : Path) (t t2 : EngState) (b2 : Bool),
        copy_directory env buf v pp fuel sd dd t = (t2, b2) → SStep t t2 := by
      intro sd dd t t2 b2 hh
      have h3 := hdir sd dd t
      rw [hh] at h3
      exact h3
    intro names
    induction names with
    | nil =>
      intro srcDir dstDir s
      rw [copyDirChildren]
      exact SStep_refl s
    | cons nm rest ih =>
      intro srcDir dstDir s
      simp only [copyDirChildren]
      by_cases hc : (checkCancel env s).cancelled = true
      · rw [if_pos hc]; exact SStep_checkCancel env s
      · rw [if_neg hc]
        by_cases hf :
            isfile (checkCancel env s).fs (srcDir ++ [nm]) = true
        · rw [if_pos hf]
          match hcf : copy_file env buf v pp (srcDir ++ [nm])
              (dstDir ++ [nm]) (checkCancel env s) with
          | (s1, false) =>
            exact SStep_trans (SStep_checkCancel env s)
              (copy_file_SStep2 env buf v pp _ _ _ _ _ hcf)
          | (s1, true) =>
            show SStep s (copyDirChildren env buf v pp fuel srcDir dstDir
              rest { s1 with filesDone := s1.filesDone + 1 }).1
            refine SStep_trans (SStep_trans (SStep_checkCancel env s)
              (copy_file_SStep2 env buf v pp _ _ _ _ _ hcf)) ?_
            exact SStep_trans (SStep_bumpDone s1) (ih srcDir dstDir _)
        · rw [if_neg hf]
          by_cases hdd :
              isdir (checkCancel env s).fs (srcDir ++ [nm]) = true
          · rw [if_pos hdd]
            match hcd : copy_directory env buf v pp fuel (srcDir ++ [nm])
                (dstDir ++ [nm]) (checkCancel env s) with
            | (s1, false) =>
              exact SStep_trans (SStep_checkCancel env s)
                (hdir2 _ _ _ _ _ hcd)
            | (s1, true) =>
              show SStep s (copyDirChildren env buf v pp fuel srcDir dstDir
                rest s1).1
              exact SStep_trans (SStep_trans (SStep_checkCancel env s)
                (hdir2 _ _ _ _ _ hcd)) (ih srcDir dstDir s1)
          · rw [if_neg hdd]
            exact SStep_trans (SStep_checkCancel env s)
              (ih srcDir dstDir (checkCancel env s))
  intro fuel
  induction fuel with
  | zero =>
    have hdir : ∀ (srcDir dstDir : Path) (s : EngState),
        SStep s (copy_directory env buf v pp 0 srcDir dstDir s).1 := by
      intro srcDir dstDir s
      rw [copy_directory]
      exact SStep_refl s
    exact ⟨hdir, hkids 0 hdir⟩
  | succ fuel ih =>
    have hdir : ∀ (srcDir dstDir : Path) (s : EngState),
        SStep s (copy_directory env buf v pp (fuel + 1) srcDir dstDir s).1
        := by
      intro srcDir dstDir s
      simp only [copy_directory]
      split
      · exact SStep_addError _ _
      · rename_i fs1 hmk
        refine SStep_trans ?_ (hkids fuel ih.1 _ _ _ _)
        refine SStep_fields ?_ ?_ ?_ <;> (split <;> rfl)
    exact ⟨hdir, hkids (fuel + 1) hdir⟩

theorem copy_directory_SStep2 (env : Env) (buf : Nat) (v pp : Bool)
    (fuel : Nat) (sd dd : Path) (s s2 : EngState) (b : Bool)
    (h : copy_directory env buf v pp fuel sd dd s = (s2, b)) :
    SStep s s2 := by
  have h1 := (copyDir_SStep env buf v pp fuel).1 sd dd s
  rw [h] at h1
  exact h1

/-- The top-level per-item loop of copy is an SStep from any start. -/
theorem copyItemsLoop_SStep (env : Env) (buf : Nat) (v pp : Bool)
    (fuel : Nat) (dest : Path) :
    ∀ (items : List Path) (s : EngState) (success : Bool),
      SStep s (copyItemsLoop env buf v pp fuel dest items s success).1 := by
  intro items
  induction items with
  | nil => intro s success; exact SStep_refl s
  | cons it rest ih =>
    intro s success
    simp only [copyItemsLoop]
    by_cases hc : (checkCancel env s).cancelled = true
    · rw [if_pos hc]; exact SStep_checkCancel env s
    · rw [if_neg hc]
      by_cases hf : isfile (checkCancel env s).fs it = true
      · rw [if_pos hf]
        match hcf : copy_file env buf v pp it (dest ++ [basename it])
            (checkCancel env s) with
        | (s1, true) =>
          show SStep s (copyItemsLoop env buf v pp fuel dest rest
            { s1 with filesDone := s1.filesDone + 1 } success).1
          refine SStep_trans (SStep_trans (SStep_checkCancel env s)
            (copy_file_SStep2 env buf v pp _ _ _ _ _ hcf)) ?_
          exact SStep_trans (SStep_bumpDone s1) (ih _ success)
        | (s1, false) =>
          show SStep s ((if (checkCancel env s1).cancelled = true then
            (checkCancel env s1, false)
            else copyItemsLoop env buf v pp fuel dest rest
              { checkCancel env s1 with
                filesDone := (checkCancel env s1).filesDone + 1 } false).1)
          by_cases hc2 : (checkCancel env s1).cancelled = true
          · rw [if_pos hc2]
            exact SStep_trans (SStep_trans (SStep_checkCancel env s)
              (copy_file_SStep2 env buf v pp _ _ _ _ _ hcf))
              (SStep_checkCancel env s1)
          · rw [if_neg hc2]
            refine SStep_trans (SStep_trans (SStep_trans
              (SStep_checkCancel env s)
              (copy_file_SStep2 env buf v pp _ _ _ _ _ hcf))
              (SStep_checkCancel env s1)) ?_
            exact SStep_trans (SStep_bumpDone (checkCancel env s1))
              (ih _ false)
      · rw [if_neg hf]
        by_cases hdd : isdir (checkCancel env s).fs it = true
        · rw [if_pos hdd]
          match hcd : copy_directory env buf v pp fuel it
              (dest ++ [basename it]) (checkCancel env s) with
          | (s1, true) =>
            show SStep s
              (copyItemsLoop env buf v pp fuel dest rest s1 success).1
            exact SStep_trans (SStep_trans (SStep_checkCancel env s)
              (copy_directory_SStep2 env buf v pp fuel _ _ _ _ _ hcd))
              (ih s1 success)
          | (s1, false) =>
            show SStep s ((if (checkCancel env s1).cancelled = true then
              (checkCancel env s1, false)
              else copyItemsLoop env buf v pp fuel dest rest
                (checkCancel env s1) false).1)
            by_cases hc2 : (checkCancel env s1).cancelled = true
            · rw [if_pos hc2]
              exact SStep_trans (SStep_trans (SStep_checkCancel env s)
                (copy_directory_SStep2 env buf v pp fuel _ _ _ _ _ hcd))
                (SStep_checkCancel env s1)
            · rw [if_neg hc2]
              exact SStep_trans (SStep_trans (SStep_trans
                (SStep_checkCancel env s)
                (copy_directory_SStep2 env buf v pp fuel _ _ _ _ _ hcd))
                (SStep_checkCancel env s1)) (ih _ false)
        · rw [if_neg hdd]
          exact SStep_trans (SStep_checkCancel env s)
            (ih (checkCancel env s) success)

theorem copyItemsLoop_SStep2 (env : Env) (buf : Nat) (v pp : Bool)
    (fuel : Nat) (dest : Path) (items : List Path) (s s2 : EngState)
    (b b2 : Bool)
    (h : copyItemsLoop env buf v pp fuel dest items s b = (s2, b2)) :
    SStep s s2 := by
  have h1 := copyItemsLoop_SStep env buf v pp fuel dest items s b
  rw [h] at h1
  exact h1

theorem snapsMono_of_nil {l : List Snap} (h : l = []) :
    snapsMono l = true := by
  rw [h]; rfl

theorem SInv_of_nil (s : EngState) (h : s.snaps = []) : SInv s = true := by
  refine SInv_of_parts (by rw [h]; rfl) ?_
  unfold snapOK
  rw [h]
  rfl

theorem SInv_checkCancel (env : Env) (s : EngState) (h : SInv s = true) :
    SInv (checkCancel env s) = true :=
  (SStep_checkCancel env s).1 h

theorem SInv_withFs (f : Node) (s : EngState) (h : SInv s = true) :
    SInv (withFs f s) = true :=
  (SStep_withFs f s).1 h

theorem SInv_addError (m : String) (s : EngState) (h : SInv s = true) :
    SInv (addError m s) = true :=
  (SStep_addError m s).1 h

theorem SInv_set100 (s : EngState) (h : SInv s = true) :
    SInv (report { s with ovPercent := 100, curPercent := 100 }) = true := by
  apply SInv_report
  exact ((SStep_fields rfl rfl rfl :
    SStep s { s with ovPercent := 100, curPercent := 100 }).1 h)

theorem checkCancel_cancelled_back (env : Env) (s : EngState)
    (h : (checkCancel env s).cancelled = false) : s.cancelled = false := by
  rw [checkCancel_cancelled] at h
  cases hcv : s.cancelled
  · rfl
  · rw [hcv] at h; simp at h

/-- The per-item progress bookkeeping of one delete step keeps the
snapshot invariant when files_done does not run ahead of the item
index. -/
theorem SInv_deleteStep (env : Env) (total : Nat) (it : Path) (i : Nat)
    (s : EngState) (hs : SInv s = true) (hle : s.filesDone ≤ i + 1) :
    SInv (deleteStepState env total it i s) = true := by
  unfold deleteStepState
  apply SInv_report
  have h1 : SStep s { checkCancel env s with
      curFile := basename it, filesDone := i + 1,
      ovPercent := (i + 1) * 100 / total } :=
    SStep_of rfl (le_refl _) hle
  exact h1.1 hs

/-- The delete loop keeps the snapshot invariant. -/
theorem deleteLoop_SInv (env : Env) (ut : Bool) (total : Nat) :
    ∀ (items : List Path) (i : Nat) (s : EngState) (success : Bool),
      SInv s = true → s.filesDone ≤ i →
      SInv (deleteLoop env ut total items i s success).1 = true := by
  intro items
  induction items with
  | nil => intro i s success h _; exact h
  | cons it rest ih =>
    intro i s success hs hle
    by_cases hcan : (checkCancel env s).cancelled = true
    · have hred : deleteLoop env ut total (it :: rest) i s success =
          (checkCancel env s, false) := by
        simp only [deleteLoop, hcan, if_true]
      rw [hred]
      exact SInv_checkCancel env s hs
    · have hcan' : (checkCancel env s).cancelled = false := by
        cases h : (checkCancel env s).cancelled
        · rfl
        · exact absurd h hcan
      match hdi : deleteItem (deleteStepState env total it i s).fs ut it with
      | (fs', false) =>
        have hred : deleteLoop env ut total (it :: rest) i s success =
            deleteLoop env ut total rest (i + 1)
              (withFs fs' (deleteStepState env total it i s)) success := by
          simp only [deleteLoop, hcan', Bool.false_eq_true, if_false, hdi]
        rw [hred]
        apply ih
        · exact SInv_withFs _ _ (SInv_deleteStep env total it i s hs
            (le_trans hle (Nat.le_succ i)))
        · simp
      | (fs', true) =>
        have hred : deleteLoop env ut total (it :: rest) i s success =
            deleteLoop env ut total rest (i + 1)
              (addError ("Cannot delete " ++ basename it)
                (deleteStepState env total it i s)) false := by
          simp only [deleteLoop, hcan', Bool.false_eq_true, if_false, hdi]
        rw [hred]
        apply ih
        · exact SInv_addError _ _ (SInv_deleteStep env total it i s hs
            (le_trans hle (Nat.le_succ i)))
        · simp

/-- The epilogue of delete: the snapshot log stays monotone and, when
the run ends uncancelled, the forced 100-percent report of lines
737-741 is the last delivered snapshot. -/
theorem deleteFinish_snapshots (env : Env) (s1 : EngState) (b : Bool)
    (h : SInv s1 = true) :
    snapsMono (deleteFinish env s1 b).1.snaps = true ∧
    ((deleteFinish env s1 b).1.cancelled = false →
      ∃ sn, (deleteFinish env s1 b).1.snaps.getLast? = some sn ∧
        sn.overallPercent = 100) := by
  simp only [deleteFinish]
  by_cases hc : (checkCancel env s1).cancelled = true
  · rw [if_pos hc]
    constructor
    · exact (SInv_parts h).1
    · intro hb
      exfalso
      rw [checkCancel_cancelled, hc] at hb
      simp at hb
  · rw [if_neg hc]
    have h2 : SInv (report { checkCancel env s1 with ovPercent := 100 })
        = true := by
      apply SInv_report
      exact ((SStep_fields rfl rfl rfl : SStep (checkCancel env s1)
        { checkCancel env s1 with ovPercent := 100 }).1
        (SInv_checkCancel env s1 h))
    constructor
    · exact (SInv_parts h2).1
    · intro hb
      exact ⟨mkSnap { checkCancel env s1 with ovPercent := 100 },
        report_getLast _, rfl⟩

/-- The final-progress-update epilogue of copy (lines 482-487 plus the
return of line 501), from any loop-exit state keeping the snapshot
invariant. -/
theorem copyTail_snaps (env : Env) (x : EngState) (b : Bool)
    (h : SInv x = true) :
    snapsMono (checkCancel env (if (checkCancel env x).cancelled = true
        then checkCancel env x
        else report { checkCancel env x with
          ovPercent := 100, curPercent := 100 })).snaps = true ∧
    ((b && !(checkCancel env (if (checkCancel env x).cancelled = true
        then checkCancel env x
        else report { checkCancel env x with
          ovPercent := 100, curPercent := 100 })).cancelled) = true →
      ∃ sn, (checkCancel env (if (checkCancel env x).cancelled = true
          then checkCancel env x
          else report { checkCancel env x with
            ovPercent := 100, curPercent := 100 })).snaps.getLast?
          = some sn ∧
        sn.overallPercent = 100 ∧ sn.percent = 100) := by
  by_cases hc5 : (checkCancel env x).cancelled = true
  · rw [if_pos hc5]
    constructor
    · exact (SInv_parts h).1
    · intro hb
      exfalso
      have h9 : (checkCancel env (checkCancel env x)).cancelled = true := by
        rw [checkCancel_cancelled, hc5]
        simp
      rw [h9] at hb
      simp at hb
  · rw [if_neg hc5]
    constructor
    · exact (SInv_parts (SInv_set100 _ (SInv_checkCancel env x h))).1
    · intro hb
      exact ⟨mkSnap { checkCancel env x with
        ovPercent := 100, curPercent := 100 }, report_getLast _, rfl, rfl⟩

/-- copy delivers a monotone snapshot sequence and, when it returns
true, ends on the forced 100-percent report of lines 482-487. -/
theorem copy_snapshots (env : Env) (buf fuel : Nat) (items : List Path)
    (dest : Path) (v pp : Bool) (s : EngState) (h0 : s.snaps = []) :
    snapsMono (copy env buf fuel items dest v pp s).1.snaps = true ∧
    ((copy env buf fuel items dest v pp s).2 = true →
      ∃ sn, (copy env buf fuel items dest v pp s).1.snaps.getLast?
          = some sn ∧ sn.overallPercent = 100 ∧ sn.percent = 100) := by
  simp only [copy]
  generalize hci : calcItems env items (clearFlags (resetProgress s)) 0 0
    = rc
  have hs1 : rc.1.snaps = [] := by
    have h2 := (calcItems_stfields env items
      (clearFlags (resetProgress s)) 0 0).1
    rw [hci] at h2
    exact h2.trans h0
  split
  · exact ⟨snapsMono_of_nil hs1, fun hb => Bool.noConfusion hb⟩
  · split
    · exact ⟨snapsMono_of_nil hs1, fun hb => Bool.noConfusion hb⟩
    · rename_i fs1 hmk
      exact copyTail_snaps env _ _
        ((copyItemsLoop_SStep env buf v pp fuel dest items _ true).1
          (SInv_of_nil _ hs1))

/-- delete delivers a monotone snapshot sequence and, when the run ends
uncancelled, the last delivered snapshot is the forced 100-percent
one. -/
theorem delete_snapshots (env : Env) (items : List Path) (ut : Bool)
    (s : EngState) (h0 : s.snaps = []) :
    snapsMono (delete env items ut s).1.snaps = true ∧
    ((delete env items ut s).1.cancelled = false →
      ∃ sn, (delete env items ut s).1.snaps.getLast? = some sn ∧
        sn.overallPercent = 100) := by
  have htail : ∀ (sL : EngState) (ut2 : Bool), sL.snaps = [] →
      sL.filesDone = 0 →
      snapsMono (deleteTail env items ut2 sL).1.snaps = true ∧
      ((deleteTail env items ut2 sL).1.cancelled = false →
        ∃ sn, (deleteTail env items ut2 sL).1.snaps.getLast? = some sn ∧
          sn.overallPercent = 100) := by
    intro sL ut2 hnil hfd
    unfold deleteTail
    exact deleteFinish_snapshots env _ _
      (deleteLoop_SInv env ut2 items.length items 0 sL true
        (SInv_of_nil _ hnil) (le_of_eq hfd))
  simp only [delete]
  split
  · split
    · exact htail _ _ h0 rfl
    · split
      · exact htail _ _ h0 rfl
      · exact htail _ _ h0 rfl
  · exact htail _ _ h0 rfl

/-- Claim C6, amended: (i) the rename pass of move delivers no
snapshot at all, so a move completing through it (the counterexample)
invokes the callback zero times - the terminal-callback guarantee holds
only for copy and delete; (ii) within one copy batch started on a fresh
callback log the delivered snapshots are monotonically non-decreasing
in overall_bytes and files_done, and a copy that returns true ends with
the forced snapshot carrying overall_percent = current_percent = 100 (a
copy that fails early - cancelled, or unable to create the destination
- can end uncancelled with no terminal 100-percent callback); (iii) the
same monotonicity holds for delete, and any delete ending uncancelled
ends with the forced 100-percent snapshot.  A move falling back to
copy-plus-delete resets the progress object between the phases, so the
sequence across one whole move need not be monotone. -/
theorem c6_amended :
    (∀ (env : Env) (dest : Path) (items : List Path) (s : EngState),
      (renameLoop env dest items s).1.snaps = s.snaps) ∧
    (∀ (env : Env) (buf fuel : Nat) (items : List Path) (dest : Path)
      (v pp : Bool) (s : EngState), s.snaps = [] →
      snapsMono (copy env buf fuel items dest v pp s).1.snaps = true ∧
      ((copy env buf fuel items dest v pp s).2 = true →
        ∃ sn, (copy env buf fuel items dest v pp s).1.snaps.getLast?
            = some sn ∧ sn.overallPercent = 100 ∧ sn.percent = 100)) ∧
    (∀ (env : Env) (items : List Path) (ut : Bool) (s : EngState),
      s.snaps = [] →
      snapsMono (delete env items ut s).1.snaps = true ∧
      ((delete env items ut s).1.cancelled = false →
        ∃ sn, (delete env items ut s).1.snaps.getLast? = some sn ∧
          sn.overallPercent = 100)) :=
  ⟨fun env dest items s => renameLoop_snaps env dest items s,
   fun env buf fuel items dest v pp s h0 =>
     copy_snapshots env buf fuel items dest v pp s h0,
   fun env items ut s h0 => delete_snapshots env items ut s h0⟩

/-- Witness for C6's amended theorem at a concrete one-file batch. -/
theorem c6_amended_witness :
    (renameLoop Env.quiet ["d"] [["x"]]
      (initState (.dir [("x", .file [7] 420 0 false false),
        ("d", .dir [] 493 0 true false)] 493 0 true false) false)).1.snaps =
      (initState (.dir [("x", .file [7] 420 0 false false),
        ("d", .dir [] 493 0 true false)] 493 0 true false) false).snaps ∧
    snapsMono (copy Env.quiet 4 4 [["x"]] ["d"] false false
      (initState (.dir [("x", .file [7] 420 0 false false),
        ("d", .dir [] 493 0 true false)] 493 0 true false)
        false)).1.snaps = true ∧
    snapsMono (delete Env.quiet [["x"]] false
      (initState (.dir [("x", .file [7] 420 0 false false),
        ("d", .dir [] 493 0 true false)] 493 0 true false)
        false)).1.snaps = true :=
  ⟨c6_amended.1 Env.quiet ["d"] [["x"]] _,
   (c6_amended.2.1 Env.quiet 4 4 [["x"]] ["d"] false false _ rfl).1,
   (c6_amended.2.2 Env.quiet [["x"]] false _ rfl).1⟩

end ClaimC6

section ClaimC7

/-- Claim C7, counterexample, two runs: (a) a copy whose single file
fails (the destination name is an existing directory) still forces
overall_percent := 100 in the final update of lines 483-485 while
overall_bytes stayed 0 out of overall_total 3, so the stored percentage
is not computed from the byte counters; (b) a copy of a directory whose
only entry is a symlink to a 2-byte file excludes the symlink from the
seeded totals (the walk's islink guard) but still copies it, ending
with overall_bytes = 2 > overall_total = 0 and returning true, so
overall_bytes ≤ overall_total fails after the totals are seeded. -/
theorem c7_counterexample :
    ((copy Env.quiet 4 4 [["a"]] ["d"] false false
      (initState (.dir [("a", .file [1, 2, 3] 420 0 false false),
        ("d", .dir [("a", .dir [] 493 0 true false)] 493 0 true false)]
        493 0 true false) false)).1.ovPercent = 100 ∧
     (copy Env.quiet 4 4 [["a"]] ["d"] false false
      (initState (.dir [("a", .file [1, 2, 3] 420 0 false false),
        ("d", .dir [("a", .dir [] 493 0 true false)] 493 0 true false)]
        493 0 true false) false)).1.ovBytes = 0 ∧
     (copy Env.quiet 4 4 [["a"]] ["d"] false false
      (initState (.dir [("a", .file [1, 2, 3] 420 0 false false),
        ("d", .dir [("a", .dir [] 493 0 true false)] 493 0 true false)]
        493 0 true false) false)).1.ovTotal = 3) ∧
    ((copy Env.quiet 4 4 [["D"]] ["dest"] false false
      (initState (.dir [("D", .dir [("s", .symlink ["f"] 0)] 493 0 true
          false), ("f", .file [7, 7] 420 0 false false),
        ("dest", .dir [] 493 0 true false)] 493 0 true false) false)).2
        = true ∧
     (copy Env.quiet 4 4 [["D"]] ["dest"] false false
      (initState (.dir [("D", .dir [("s", .symlink ["f"] 0)] 493 0 true
          false), ("f", .file [7, 7] 420 0 false false),
        ("dest", .dir [] 493 0 true false)] 493 0 true false)
        false)).1.ovBytes = 2 ∧
     (copy Env.quiet 4 4 [["D"]] ["dest"] false false
      (initState (.dir [("D", .dir [("s", .symlink ["f"] 0)] 493 0 true
          false), ("f", .file [7, 7] 420 0 false false),
        ("dest", .dir [] 493 0 true false)] 493 0 true false)
        false)).1.ovTotal = 0) :=
  ⟨⟨rfl, rfl, rfl⟩, ⟨rfl, rfl, rfl⟩⟩

theorem getsize_readContent (root : Node) (p : Path) (n : Nat)
    (c : List Nat) (h1 : getsize root p = some n)
    (h2 : readContent root p = some c) : c.length = n := by
  unfold getsize at h1
  unfold readContent at h2
  match hr : resolveNode root p with
  | some (.file c2 m d sf uf) =>
    simp only [hr] at h1 h2
    cases sf
    · simp at h1 h2
      subst h2
      exact h1
    · simp at h1
  | some (.dir cs m d a r) => simp [hr] at h2
  | some (.symlink t dv) => simp [hr] at h2
  | none => simp [hr] at h2

theorem snapDerived_updPercents (fileSize : Nat) (x : EngState)
    (ht : x.curTotal = fileSize) (hb : x.curBytes ≤ fileSize) :
    snapDerived (mkSnap (updPercents fileSize x)) = true := by
  unfold snapDerived updPercents mkSnap
  by_cases hf : fileSize > 0
  · by_cases ho : x.ovTotal > 0
    · simp [hf, ho, ht, hb]
    · simp [hf, ho, ht, hb]
  · by_cases ho : x.ovTotal > 0
    · simp [hf, ho, ht, hb]
    · simp [hf, ho, ht, hb]

@[simp] theorem report_curTotal (s : EngState) :
    (report s).curTotal = s.curTotal := rfl
@[simp] theorem report_curBytes (s : EngState) :
    (report s).curBytes = s.curBytes := rfl
@[simp] theorem report_curPercent (s : EngState) :
    (report s).curPercent = s.curPercent := rfl
@[simp] theorem report_ovPercent (s : EngState) :
    (report s).ovPercent = s.ovPercent := rfl

theorem chunkStep_facts (env : Env) (dst : Path) (fileSize : Nat)
    (chunk : List Nat) (s : EngState) (ht : s.curTotal = fileSize)
    (hb : s.curBytes + chunk.length ≤ fileSize) :
    (chunkStep env dst fileSize chunk s).curTotal = fileSize ∧
    (chunkStep env dst fileSize chunk s).curBytes
      = s.curBytes + chunk.length ∧
    ∃ l0, (chunkStep env dst fileSize chunk s).snaps = s.snaps ++ l0 ∧
      ∀ sn ∈ l0, snapDerived sn = true := by
  simp only [chunkStep]
  split
  · refine ⟨?_, ?_, ⟨[mkSnap (updPercents fileSize (drawTick env
        { s with fs := appendToFile s.fs dst chunk,
                 curBytes := s.curBytes + chunk.length,
                 ovBytes := s.ovBytes + chunk.length }).1)], ?_, ?_⟩⟩
    · rw [report_curTotal, updPercents_curTotal]
      exact ht
    · rw [report_curBytes, updPercents_curBytes]
      rfl
    · rw [report_snaps, updPercents_snaps]
      rfl
    · intro sn hsn
      simp only [List.mem_singleton] at hsn
      subst hsn
      exact snapDerived_updPercents fileSize _ ht hb
  · exact ⟨ht, rfl, ⟨[], (List.append_nil s.snaps).symm, by simp⟩⟩

/-- The chunk loop of copy_file keeps current_bytes within
current_total and every snapshot it delivers carries the recomputed
percentages. -/
theorem copyChunks_derived (env : Env) (buf : Nat) (dst : Path)
    (fileSize : Nat) :
    ∀ (n : Nat) (rem : List Nat) (s : EngState), rem.length ≤ n →
      s.curTotal = fileSize → s.curBytes + rem.length ≤ fileSize →
      (∃ l, (copyChunks env buf dst fileSize rem s).1.snaps
          = s.snaps ++ l ∧ ∀ sn ∈ l, snapDerived sn = true) ∧
      (copyChunks env buf dst fileSize rem s).1.curBytes ≤
        (copyChunks env buf dst fileSize rem s).1.curTotal := by
  intro n
  induction n with
  | zero =>
    intro rem s hn ht hb
    have h0 : rem = [] := List.eq_nil_of_length_eq_zero (Nat.le_zero.mp hn)
    subst h0
    simp only [List.length_nil] at hb
    rw [copyChunks_eq]
    by_cases hc : (checkCancel env s).cancelled = true
    · rw [if_pos hc]
      refine ⟨⟨[], (List.append_nil s.snaps).symm, by simp⟩, ?_⟩
      show s.curBytes ≤ s.curTotal
      omega
    · rw [if_neg hc,
        if_pos (by simp : (List.take buf ([] : List Nat)).isEmpty = true)]
      refine ⟨⟨[], (List.append_nil s.snaps).symm, by simp⟩, ?_⟩
      show s.curBytes ≤ s.curTotal
      omega
  | succ n ih =>
    intro rem s hn ht hb
    rw [copyChunks_eq]
    by_cases hc : (checkCancel env s).cancelled = true
    · rw [if_pos hc]
      refine ⟨⟨[], (List.append_nil s.snaps).symm, by simp⟩, ?_⟩
      show s.curBytes ≤ s.curTotal
      omega
    · rw [if_neg hc]
      by_cases he : (rem.take buf).isEmpty = true
      · rw [if_pos he]
        refine ⟨⟨[], (List.append_nil s.snaps).symm, by simp⟩, ?_⟩
        show s.curBytes ≤ s.curTotal
        omega
      · rw [if_neg he]
        have hb2 : buf ≠ 0 := fun h0 => he (by simp [h0])
        have hr2 : rem ≠ [] := fun h0 => he (by simp [h0])
        have hlen : (rem.drop buf).length ≤ n := by
          have h3 := List.length_pos.mpr hr2
          have h4 := Nat.pos_of_ne_zero hb2
          simp only [List.length_drop]
          omega
        have htake : (rem.take buf).length = min buf rem.length :=
          List.length_take _ _
        obtain ⟨hT, hB, l0, hl0, hd0⟩ := chunkStep_facts env dst fileSize
          (rem.take buf) (checkCancel env s) ht (by
            show s.curBytes + (rem.take buf).length ≤ fileSize
            omega)
        obtain ⟨⟨l, hl, hder⟩, hle⟩ := ih (rem.drop buf)
          (chunkStep env dst fileSize (rem.take buf) (checkCancel env s))
          hlen hT (by
            rw [hB]
            simp only [List.length_drop]
            show s.curBytes + (rem.take buf).length + (rem.length - buf)
              ≤ fileSize
            omega)
        refine ⟨⟨l0 ++ l, ?_, ?_⟩, hle⟩
        · rw [hl, hl0, List.append_assoc]
          rfl
        · intro sn hsn
          rcases List.mem_append.mp hsn with h | h
          · exact hd0 sn h
          · exact hder sn h

theorem copyChunks_derived2 (env : Env) (buf : Nat) (dst : Path)
    (fileSize : Nat) (rem : List Nat) (s s2 : EngState) (b : Bool)
    (h : copyChunks env buf dst fileSize rem s = (s2, b))
    (ht : s.curTotal = fileSize) (hb : s.curBytes + rem.length ≤ fileSize) :
    (∃ l, s2.snaps = s.snaps ++ l ∧ ∀ sn ∈ l, snapDerived sn = true) ∧
    s2.curBytes ≤ s2.curTotal := by
  have h1 := copyChunks_derived env buf dst fileSize rem.length rem s
    (le_refl _) ht hb
  rw [h] at h1
  exact h1

theorem verifySection_field_snaps (src dst : Path) (x : EngState) :
    (verifySection src dst x).1.snaps = x.snaps := by
  unfold verifySection
  split <;> rfl

/-- Every snapshot appended by a copy_file call into an existing parent
directory is derived: current ≤ total and both percentages recomputed
from the byte counters at delivery. -/
theorem copy_file_derived (env : Env) (buf : Nat) (v pp : Bool)
    (src dst : Path) (s : EngState)
    (hpe : pexists s.fs (dirname dst) = true) :
    ∃ l, (copy_file env buf v pp src dst s).1.snaps = s.snaps ++ l ∧
      ∀ sn ∈ l, snapDerived sn = true := by
  rcases hr : copy_file env buf v pp src dst s with ⟨s', b⟩
  simp only [copy_file, apply_ite EngState.fs, apply_ite EngState.snaps,
    addWarning_fs, addWarning_snaps, ite_self, hpe, if_true] at hr
  split at hr
  · injection hr with h1 h2
    subst h1
    exact ⟨[], by simp [apply_ite EngState.snaps], by simp⟩
  · rename_i fileSize hgs
    split at hr
    · injection hr with h1 h2
      subst h1
      exact ⟨[], by simp [apply_ite EngState.snaps], by simp⟩
    · rename_i content hrc
      split at hr
      · injection hr with h1 h2
        subst h1
        exact ⟨[], by simp [apply_ite EngState.snaps], by simp⟩
      · rename_i dstReal fs2 how
        have hclen : content.length = fileSize :=
          getsize_readContent s.fs src fileSize content hgs hrc
        split at hr
        · rename_i s2 hch
          injection hr with h1 h2
          subst h1
          obtain ⟨⟨l, hl, hd⟩, _⟩ := copyChunks_derived2 env buf dstReal
            fileSize content _ s2 false hch rfl (by
              show 0 + content.length ≤ fileSize
              omega)
          exact ⟨l, hl.trans rfl, hd⟩
        · rename_i s2 hch
          obtain ⟨⟨l, hl, hd⟩, _⟩ := copyChunks_derived2 env buf dstReal
            fileSize content _ s2 true hch rfl (by
              show 0 + content.length ≤ fileSize
              omega)
          split at hr
          · have h7 := verifySection_field_snaps src dstReal
              { s2 with fs := copyMetadata s2.fs src dstReal }
            rw [hr] at h7
            exact ⟨l, h7.trans (hl.trans rfl), hd⟩
          · injection hr with h1 h2
            subst h1
            exact ⟨l, hl.trans rfl, hd⟩

/-- Claim C7, amended: what does hold of the percentage bookkeeping:
(i) the throttled update recomputes both percentage fields from the
byte counters at the moment of delivery and changes no byte or total
counter; (ii) through the chunk loop of copy_file, current_bytes stays
within current_total and every delivered snapshot is derived (current ≤
total, percentages equal to bytes*100/total at delivery); (iii) every
snapshot appended by a whole copy_file call into an existing parent
directory is derived in that sense.  The claim's global invariant is
false: the end-of-batch updates of lines 483-485 and 739-740 store
overall_percent := 100 regardless of the byte counters, and a symlinked
file is excluded from the seeded totals but still copied, driving
overall_bytes above overall_total (see the counterexample). -/
theorem c7_amended :
    (∀ (fileSize : Nat) (s : EngState),
      ((updPercents fileSize s).curBytes = s.curBytes ∧
       (updPercents fileSize s).curTotal = s.curTotal ∧
       (updPercents fileSize s).ovBytes = s.ovBytes ∧
       (updPercents fileSize s).ovTotal = s.ovTotal) ∧
      (0 < fileSize →
        (updPercents fileSize s).curPercent = s.curBytes * 100 / fileSize) ∧
      (0 < s.ovTotal →
        (updPercents fileSize s).ovPercent = s.ovBytes * 100 / s.ovTotal)) ∧
    (∀ (env : Env) (buf : Nat) (dst : Path) (fileSize : Nat)
      (rem : List Nat) (s : EngState),
      s.curTotal = fileSize → s.curBytes + rem.length ≤ fileSize →
      (∃ l, (copyChunks env buf dst fileSize rem s).1.snaps
          = s.snaps ++ l ∧ ∀ sn ∈ l, snapDerived sn = true) ∧
      (copyChunks env buf dst fileSize rem s).1.curBytes ≤
        (copyChunks env buf dst fileSize rem s).1.curTotal) ∧
    (∀ (env : Env) (buf : Nat) (v pp : Bool) (src dst : Path)
      (s : EngState), pexists s.fs (dirname dst) = true →
      ∃ l, (copy_file env buf v pp src dst s).1.snaps = s.snaps ++ l ∧
        ∀ sn ∈ l, snapDerived sn = true) := by
  refine ⟨?_, ?_, ?_⟩
  · intro fileSize s
    refine ⟨⟨by simp, by simp, by simp, by simp⟩, ?_, ?_⟩
    · intro hf
      unfold updPercents
      by_cases ho : s.ovTotal > 0 <;> simp [hf, ho]
    · intro ho
      unfold updPercents
      by_cases hf : fileSize > 0 <;> simp [hf, ho]
  · intro env buf dst fileSize rem s ht hb
    exact copyChunks_derived env buf dst fileSize rem.length rem s
      (le_refl _) ht hb
  · intro env buf v pp src dst s hpe
    exact copy_file_derived env buf v pp src dst s hpe

/-- Witness for C7's amended theorem: the chunk-loop clause at a
concrete 3-byte copy under an always-firing throttle, and the copy_file
clause at a concrete verified copy. -/
theorem c7_amended_witness :
    ((∃ l, (copyChunks ⟨fun t => false, fun t => true⟩ 2 ["d", "b"] 3
        [1, 2, 3] { initState (.dir [("d", .dir [] 493 0 true false)]
          493 0 true false) false with curTotal := 3 }).1.snaps =
        ({ initState (.dir [("d", .dir [] 493 0 true false)]
          493 0 true false) false with curTotal := 3 } : EngState).snaps
          ++ l ∧
        ∀ sn ∈ l, snapDerived sn = true) ∧
      (copyChunks ⟨fun t => false, fun t => true⟩ 2 ["d", "b"] 3
        [1, 2, 3] { initState (.dir [("d", .dir [] 493 0 true false)]
          493 0 true false) false with curTotal := 3 }).1.curBytes ≤
      (copyChunks ⟨fun t => false, fun t => true⟩ 2 ["d", "b"] 3
        [1, 2, 3] { initState (.dir [("d", .dir [] 493 0 true false)]
          493 0 true false) false with curTotal := 3 }).1.curTotal) ∧
    (∃ l, (copy_file Env.quiet 2 true true ["a"] ["d", "b"]
      (initState (.dir [("a", .file [1, 2, 3] 420 0 false false),
        ("d", .dir [] 493 0 true false)] 493 0 true false)
        false)).1.snaps =
      (initState (.dir [("a", .file [1, 2, 3] 420 0 false false),
        ("d", .dir [] 493 0 true false)] 493 0 true false) false).snaps
        ++ l ∧
      ∀ sn ∈ l, snapDerived sn = true) :=
  ⟨c7_amended.2.1 ⟨fun t => false, fun t => true⟩ 2 ["d", "b"] 3 [1, 2, 3]
    { initState (.dir [("d", .dir [] 493 0 true false)] 493 0 true false)
      false with curTotal := 3 } rfl (by simp [initState]),
   c7_amended.2.2 Env.quiet 2 true true ["a"] ["d", "b"]
    (initState (.dir [("a", .file [1, 2, 3] 420 0 false false),
      ("d", .dir [] 493 0 true false)] 493 0 true false) false) rfl⟩

end ClaimC7

section ClaimC10

/-- Claim C10: an item of a copy batch that is neither an existing
regular file nor an existing directory is silently skipped: (i) the
batch loop on such an item performs exactly its cancel-flag read and
continues with the rest - the whole remaining computation is equal to
the one without the item, and that read touches neither errors,
warnings nor files_done (lines 466, 475, 480: no else branch); (ii) the
size pre-pass skips such an item the same way; (iii) concretely, a
batch of one good file and one broken symlink returns true with
files_done = 1 and empty errors and warnings. -/
theorem c10_silent_skip :
    (∀ (env : Env) (buf : Nat) (v pp : Bool) (fuel : Nat) (dest : Path)
      (it : Path) (rest : List Path) (s : EngState) (success : Bool),
      isfile s.fs it = false → isdir s.fs it = false →
      (checkCancel env s).cancelled = false →
      copyItemsLoop env buf v pp fuel dest (it :: rest) s success =
        copyItemsLoop env buf v pp fuel dest rest (checkCancel env s)
          success ∧
      (checkCancel env s).errors = s.errors ∧
      (checkCancel env s).warnings = s.warnings ∧
      (checkCancel env s).filesDone = s.filesDone) ∧
    (∀ (env : Env) (it : Path) (rest : List Path) (s : EngState)
      (tot cnt : Nat),
      isfile s.fs it = false → isdir s.fs it = false →
      (checkCancel env s).cancelled = false →
      calcItems env (it :: rest) s tot cnt =
        calcItems env rest (checkCancel env s) tot cnt) ∧
    ((copy Env.quiet 4 4 [["g"], ["bad"]] ["dest"] false false
      (initState (.dir [("g", .file [5] 420 0 false false),
        ("bad", .symlink ["nope"] 0),
        ("dest", .dir [] 493 0 true false)] 493 0 true false) false)).2
        = true ∧
     (copy Env.quiet 4 4 [["g"], ["bad"]] ["dest"] false false
      (initState (.dir [("g", .file [5] 420 0 false false),
        ("bad", .symlink ["nope"] 0),
        ("dest", .dir [] 493 0 true false)] 493 0 true false)
        false)).1.filesDone = 1 ∧
     (copy Env.quiet 4 4 [["g"], ["bad"]] ["dest"] false false
      (initState (.dir [("g", .file [5] 420 0 false false),
        ("bad", .symlink ["nope"] 0),
        ("dest", .dir [] 493 0 true false)] 493 0 true false)
        false)).1.errors = [] ∧
     (copy Env.quiet 4 4 [["g"], ["bad"]] ["dest"] false false
      (initState (.dir [("g", .file [5] 420 0 false false),
        ("bad", .symlink ["nope"] 0),
        ("dest", .dir [] 493 0 true false)] 493 0 true false)
        false)).1.warnings = []) := by
  refine ⟨?_, ?_, rfl, rfl, rfl, rfl⟩
  · intro env buf v pp fuel dest it rest s success hf hd hc
    refine ⟨?_, rfl, rfl, rfl⟩
    simp only [copyItemsLoop, checkCancel_fs]
    rw [if_neg (by simp [hc]), if_neg (by simp [hf]), if_neg (by simp [hd])]
  · intro env it rest s tot cnt hf hd hc
    simp only [calcItems, checkCancel_fs]
    rw [if_neg (by simp [hc]), if_neg (by simp [hf]), if_neg (by simp [hd])]

/-- Witness for C10 at a broken symlink as the skipped item. -/
theorem c10_silent_skip_witness :
    copyItemsLoop Env.quiet 4 false false 4 ["dest"] [["bad"]]
      (initState (.dir [("bad", .symlink ["nope"] 0),
        ("dest", .dir [] 493 0 true false)] 493 0 true false) false)
      true =
    copyItemsLoop Env.quiet 4 false false 4 ["dest"] []
      (checkCancel Env.quiet
        (initState (.dir [("bad", .symlink ["nope"] 0),
          ("dest", .dir [] 493 0 true false)] 493 0 true false) false))
      true ∧
    calcItems Env.quiet [["bad"]]
      (initState (.dir [("bad", .symlink ["nope"] 0),
        ("dest", .dir [] 493 0 true false)] 493 0 true false) false) 0 0 =
    calcItems Env.quiet []
      (checkCancel Env.quiet
        (initState (.dir [("bad", .symlink ["nope"] 0),
          ("dest", .dir [] 493 0 true false)] 493 0 true false) false))
      0 0 :=
  ⟨(c10_silent_skip.1 Env.quiet 4 false false 4 ["dest"] ["bad"] []
    (initState (.dir [("bad", .symlink ["nope"] 0),
      ("dest", .dir [] 493 0 true false)] 493 0 true false) false) true
    rfl rfl rfl).1,
   c10_silent_skip.2.1 Env.quiet ["bad"] []
    (initState (.dir [("bad", .symlink ["nope"] 0),
      ("dest", .dir [] 493 0 true false)] 493 0 true false) false) 0 0
    rfl rfl rfl⟩

end ClaimC10

end FileOps
